import Mathlib

set_option maxRecDepth 4000

/-!
Shallow embedding of the pod synthesizer of argo-workflows
(`workflow/controller/workflowpod.go`).

Pure data (templates, containers, volumes, secrets) is modelled with
inductive types and structures; the stateful construction of the pod is
modelled as explicit state passing over a `SynthState`; fallible stages
return `Except CtrlErr`.  External collaborators that are not part of the
source file (the overlap detector `common.FindOverlappingVolume`, the
Windows UNC path test, the strategic merge-patch primitive, JSON
round-tripping, the cluster API client) are passed in as explicit
function or data parameters, so every theorem quantifies over their
behaviour.  Time is modelled in whole seconds as integers; the fractional
truncation done by `int64(d.Seconds())` is the identity in this model.

Fields of the Kubernetes types that no claim touches (resource requests,
security contexts, image pull policy, scheduling constraints, metadata)
are omitted from the structures; everything that is kept follows the
source line by line.
-/

/-- Template variants, mirroring the results of `wfv1.Template.GetType`
used in `workflowpod.go`. -/
inductive TemplateType
  | container
  | containerSet
  | script
  | resource
  | data
  | steps
  | dag
  | suspendT
deriving DecidableEq

/-- Container runtime executor variants
(the `common.ContainerRuntimeExecutor*` constants). -/
inductive ExecutorType
  | docker
  | kubelet
  | pns
  | emissary
  | k8sapi
deriving DecidableEq

/-- Modelled from the spec: the canonical main container name from the
`workflow/common` package (not under src), value as in the repository. -/
def MainContainerName : String := "main"

/-- Modelled from the spec: the wait container name from `workflow/common`. -/
def WaitContainerName : String := "wait"

/-- Modelled from the spec: the init container name from `workflow/common`. -/
def InitContainerName : String := "init"

/-- Modelled from the spec: the docker socket volume name from
`workflow/common`. -/
def DockerSockVolumeName : String := "docker-sock"

/-- Modelled from the spec: default kubeconfig volume name from
`workflow/common`. -/
def KubeConfigDefaultVolumeName : String := "kubeconfig"

/-- Modelled from the spec: the base mount path of secret volumes from
`workflow/common`. -/
def SecretVolMountPath : String := "/argo/secret"

/-- Modelled from the spec: the artifact staging base dir of the init
container, from `workflow/common`. -/
def ExecutorArtifactBaseDir : String := "/argo/inputs/artifacts"

/-- Modelled from the spec: the mirror prefix of the main container
filesystem, from `workflow/common`. -/
def ExecutorMainFilesystemDir : String := "/mainctrfs"

/-- Modelled from the spec: the script staging dir from `workflow/common`. -/
def ExecutorStagingEmptyDir : String := "/argo/staging"

/-- An environment variable of a container (`apiv1.EnvVar`, name/value only). -/
structure EnvVar where
  name : String := ""
  value : String := ""
deriving DecidableEq

/-- A volume mount (`apiv1.VolumeMount`). -/
structure VolumeMount where
  name : String := ""
  mountPath : String := ""
  subPath : String := ""
  readOnly : Bool := false
deriving DecidableEq

/-- A key-to-path projection entry of a secret volume (`apiv1.KeyToPath`). -/
structure KeyToPath where
  key : String := ""
  path : String := ""
deriving DecidableEq

/-- The volume source variants used by `workflowpod.go`. -/
inductive VolumeSource
  | emptyDir
  | hostPath (path : String)
  | secretSrc (secretName : String) (items : List KeyToPath)
  | otherSrc
deriving DecidableEq

/-- A pod volume (`apiv1.Volume`). -/
structure Volume where
  name : String := ""
  source : VolumeSource := .emptyDir
deriving DecidableEq

/-- A container (`apiv1.Container`); `args = none` models a nil Args slice,
which the emissary branch treats differently from an empty one. -/
structure Container where
  name : String := ""
  image : String := ""
  command : List String := []
  args : Option (List String) := none
  env : List EnvVar := []
  volumeMounts : List VolumeMount := []
deriving DecidableEq

/-- A secret key selector (`apiv1.SecretKeySelector`); a nil pointer is
modelled as `none` at the use sites. -/
structure SecretSel where
  name : String := ""
  key : String := ""
deriving DecidableEq

/-- The artifact-location variants carrying secret references
(S3, Git, Artifactory, HDFS, OSS, GCS), as dispatched on by
`createSecretVolume` and `createArchiveLocationSecret`. -/
inductive ArtLocation
  | noLoc
  | s3 (accessKeySecret secretKeySecret : Option SecretSel)
  | git (usernameSecret passwordSecret sshPrivateKeySecret : Option SecretSel)
  | artifactory (usernameSecret passwordSecret : Option SecretSel)
  | hdfs (krbCCacheSecret krbKeytabSecret : Option SecretSel)
  | oss (accessKeySecret secretKeySecret : Option SecretSel)
  | gcs (serviceAccountKeySecret : Option SecretSel)
deriving DecidableEq

/-- An input or output artifact; `hasLocationOrKey` models the external
method `art.HasLocationOrKey()` as a field. -/
structure Artifact where
  name : String := ""
  path : String := ""
  optional : Bool := false
  hasLocationOrKey : Bool := false
  location : ArtLocation := .noLoc
deriving DecidableEq

/-- A user container (init container or sidecar declared on the template). -/
structure UserContainer where
  container : Container := {}
  mirrorVolumeMounts : Option Bool := none
deriving DecidableEq

/-- The step template, restricted to the fields `workflowpod.go` reads.
`tmplVolumeMounts` models the external `tmpl.GetVolumeMounts()`;
`hasData` models `tmpl.Data != nil`; `dataArt` models
`tmpl.Data.Source.GetArtifactIfNeeded()`; `hasWindowsNodeSelector`
models `util.HasWindowsOSNodeSelector(tmpl.NodeSelector)`. -/
structure Template where
  name : String := ""
  ttype : TemplateType := .container
  activeDeadlineSeconds : Option Int := none
  volumes : List Volume := []
  tmplVolumeMounts : List VolumeMount := []
  initContainers : List UserContainer := []
  sidecars : List UserContainer := []
  inputArtifacts : List Artifact := []
  outputArtifacts : List Artifact := []
  archiveLocation : Option ArtLocation := none
  hasData : Bool := false
  dataArt : Option Artifact := none
  hasWindowsNodeSelector : Bool := false
deriving DecidableEq

/-- Image entry of the controller configuration image index (`config.Image`). -/
structure ImageCfg where
  command : List String := []
  args : Option (List String) := none
deriving DecidableEq

/-- KubeConfig section of the controller configuration. -/
structure KubeConfigCfg where
  volumeName : String := ""
  secretName : String := ""
deriving DecidableEq

/-- The slice of the controller configuration read by the modelled stages. -/
structure CtrlConfig where
  kubeConfig : Option KubeConfigCfg := none
  dockerSockPath : String := ""
  images : Option (List (String × ImageCfg)) := none
  executorImage : String := "argoexec"
deriving DecidableEq

/-- Error taxonomy of the controller, distinguishing the constructors the
source uses: `badRequest` is `errors.Errorf(errors.CodeBadRequest, ...)`,
`internal` is `errors.InternalWrapError`, `wrap` is `errors.Wrap(err, "", msg)`,
`errMsg` is a plain `fmt.Errorf`, `kube` is an error of the cluster API
propagated unchanged, `rateLimitReached` is the distinguished rate limit
sentinel. -/
inductive KubeErrClass
  | alreadyExists
  | transient
  | otherErr
deriving DecidableEq

inductive CtrlErr
  | badRequest (msg : String)
  | internal (msg : String)
  | wrap (msg : String)
  | errMsg (msg : String)
  | kube (cls : KubeErrClass) (msg : String)
  | rateLimitReached
deriving DecidableEq

/-- The fixed var-run-argo volume (`volumeVarArgo`, workflowpod.go:32). -/
def volumeVarArgo : Volume := { name := "var-run-argo", source := .emptyDir }

/-- The fixed var-run-argo volume mount (`volumeMountVarArgo`,
workflowpod.go:38). -/
def volumeMountVarArgo : VolumeMount :=
  { name := "var-run-argo", mountPath := "/var/run/argo" }

/-- Docker socket path selection (`getDockerSockPath`, workflowpod.go:57). -/
def getDockerSockPath (tmpl : Template) : String :=
  if tmpl.hasWindowsNodeSelector then "\\\\.\\pipe\\docker_engine"
  else "/var/run/docker.sock"

/-- Docker socket mount for the wait container
(`getVolumeMountDockerSock`, workflowpod.go:45). -/
def getVolumeMountDockerSock (tmpl : Template) : VolumeMount :=
  { name := DockerSockVolumeName,
    mountPath := getDockerSockPath tmpl,
    readOnly := !tmpl.hasWindowsNodeSelector }

/-- Docker socket volume (`getVolumeDockerSock`, workflowpod.go:73). -/
def getVolumeDockerSock (cfg : CtrlConfig) (tmpl : Template) : Volume :=
  { name := DockerSockVolumeName,
    source := .hostPath
      (if cfg.dockerSockPath ≠ "" then cfg.dockerSockPath
       else getDockerSockPath tmpl) }

/-!
Deadline resolution (workflowpod.go lines 177-203 and 439-457).
-/

/-- Outcome of the deadline resolution block, lines 177-194:
`skipNoPodNoError` models the `return nil, nil` taken when the relative
workflow deadline is not positive; `proceed ads` carries the computed
`activeDeadlineSeconds` pointer. -/
inductive DeadlineOutcome
  | skipNoPodNoError
  | proceed (ads : Option Int)
deriving DecidableEq

/-- Deadline resolution, workflowpod.go lines 183-194.  The caller supplies
the workflow deadline already converted to a relative second count
(`int64(wfDeadline.Sub(now).Seconds())`). -/
def resolveDeadline (wfDeadlineRel : Option Int) (onExitPod : Bool)
    (tmplADS : Option Int) : DeadlineOutcome :=
  match wfDeadlineRel with
  | none => .proceed tmplADS
  | some w =>
    if onExitPod then .proceed tmplADS
    else if w ≤ 0 then .skipNoPodNoError
    else
      match tmplADS with
      | none => .proceed (some w)
      | some t => if w < t then .proceed (some w) else .proceed (some t)

/-- True when a container carries one of the interactive debugging markers
(workflowpod.go lines 197-203). -/
def hasDebugPause (c : Container) : Bool :=
  c.env.any (fun e =>
    e.name = "ARGO_DEBUG_PAUSE_BEFORE" || e.name = "ARGO_DEBUG_PAUSE_AFTER")

/-- The debug override of the deadline, workflowpod.go lines 196-203:
if any main container carries a pause marker the deadline is cleared. -/
def debugOverride (mainCtrs : List Container) (ads : Option Int) : Option Int :=
  if mainCtrs.any hasDebugPause then none else ads

/-- The post-assembly template timeout check, workflowpod.go lines 450-457.
`now` and `templateDeadline` are absolute times in whole seconds;
`templateDeadline` models the result of the external
`woc.checkTemplateTimeout`. -/
def applyTemplateDeadline (now : Int) (templateDeadline : Option Int)
    (ads : Option Int) (nodeName : String) : Except CtrlErr (Option Int) :=
  match templateDeadline with
  | none => .ok ads
  | some td =>
    if (match ads with
        | none => true
        | some a => decide (now - td < a)) then
      if td - now ≤ 1 then .error (.errMsg (nodeName ++ " exceeded its deadline"))
      else .ok (some (td - now))
    else .ok ads

/-- Result of a synthesis phase: a pod field was produced, or synthesis
returned nil pod together with nil error, or it failed. -/
inductive PodPhase (α : Type)
  | created (a : α)
  | skipNoPodNoError
  | failed (e : CtrlErr)
deriving DecidableEq

/-- The complete activeDeadlineSeconds pipeline of `createWorkflowPod`
without a pod spec patch: resolution (lines 177-194), the debug override
(lines 196-203) and the template timeout check (lines 450-457). -/
def finalADS (wfDeadlineRel : Option Int) (onExitPod : Bool)
    (tmplADS : Option Int) (mainCtrs : List Container) (now : Int)
    (templateDeadline : Option Int) (nodeName : String) :
    PodPhase (Option Int) :=
  match resolveDeadline wfDeadlineRel onExitPod tmplADS with
  | .skipNoPodNoError => .skipNoPodNoError
  | .proceed ads =>
    match applyTemplateDeadline now templateDeadline
        (debugOverride mainCtrs ads) nodeName with
    | .error e => .failed e
    | .ok a => .created a

/-!
The final create call (workflowpod.go lines 465-478).
-/

/-- The created workload object, identified only by its name; the claims
about the create call do not inspect its contents. -/
structure PodObj where
  name : String := ""
deriving DecidableEq

/-- Error dispatch after the cluster API create call, workflowpod.go lines
465-481.  `created` is the object returned by the client together with the
classified error: an already-exists response is success returning that
object, a transient error is propagated unchanged, anything else is
wrapped as an internal error. -/
def finishCreate (created : PodObj) (err : Option (KubeErrClass × String)) :
    Except CtrlErr PodObj :=
  match err with
  | none => .ok created
  | some e =>
    match e.1 with
    | .alreadyExists => .ok created
    | .transient => .error (.kube e.1 e.2)
    | .otherErr => .error (.internal e.2)

/-!
Container assembly (workflowpod.go lines 152-175 and 249-290).
-/

/-- Main container renaming, workflowpod.go lines 152-155: every main
container of a non-containerSet template (and every unnamed one) receives
the canonical main name.  The resource-merging part of the same loop is
omitted; it does not touch names. -/
def renameMainCtrs (ttype : TemplateType) (mains : List Container) :
    List Container :=
  mains.map (fun c =>
    if c.name = "" ∨ ttype ≠ .containerSet then { c with name := MainContainerName }
    else c)

/-- The wait container (`newWaitContainer` and `newExecContainer`); the
PNS security context it also sets is omitted (no claim reads it), the
docker socket mount is kept. -/
def newWaitContainer (cfg : CtrlConfig) (exec : ExecutorType)
    (tmpl : Template) (logLevel : String) : Container :=
  let base : Container :=
    { name := WaitContainerName,
      image := cfg.executorImage,
      command := ["argoexec", "wait", "--loglevel", logLevel] }
  if exec = .docker then
    { base with volumeMounts := base.volumeMounts ++ [getVolumeMountDockerSock tmpl] }
  else base

/-- The init container (`newInitContainer`). -/
def newInitContainer (cfg : CtrlConfig) (logLevel : String) : Container :=
  { name := InitContainerName,
    image := cfg.executorImage,
    command := ["argoexec", "init", "--loglevel", logLevel] }

/-- Container list assembly, workflowpod.go lines 260-271: the wait
container is appended first unless the template type is resource or data,
then the (renamed) main containers. -/
def assembleContainers (cfg : CtrlConfig) (exec : ExecutorType)
    (tmpl : Template) (logLevel : String) (mains : List Container) :
    List Container :=
  (if tmpl.ttype = .resource ∨ tmpl.ttype = .data then []
   else [newWaitContainer cfg exec tmpl logLevel]) ++
    renameMainCtrs tmpl.ttype mains

/-- The ShareProcessNamespace pod spec field, workflowpod.go lines 249-251:
set to true exactly for the PNS executor, otherwise left nil. -/
def shareProcessNamespaceField (exec : ExecutorType) : Option Bool :=
  if exec = .pns then some true else none

/-!
Emissary command resolution (workflowpod.go lines 420-437 and 518-523).
-/

/-- Image index lookup helper over the configured list. -/
def lookupImage : List (String × ImageCfg) → String → Option ImageCfg
  | [], _ => none
  | e :: rest, img => if e.1 = img then some e.2 else lookupImage rest img

/-- Image command index lookup (`getImage`, workflowpod.go lines 518-523):
a missing index or a missing entry yields the zero value. -/
def getImage (images : Option (List (String × ImageCfg))) (img : String) :
    ImageCfg :=
  match images with
  | none => {}
  | some l => (lookupImage l img).getD {}

/-- The wrapper invocation prepended by the emissary executor
(workflowpod.go line 433). -/
def wrapperCmd : List String := ["/var/run/argo/argoexec", "emissary", "--"]

/-- The error text of the emissary no-command failure, naming the container
and the template (workflowpod.go line 431, message shortened). -/
def emissaryNoCommandMsg (ctrName tmplName : String) : String :=
  "container " ++ ctrName ++ " in template " ++ tmplName ++
    " does not have the command specified"

/-- Command and args resolution from the image index, workflowpod.go lines
423-429: only containers without an explicit command are resolved, and
args only when they are nil. -/
def emissaryResolve (images : Option (List (String × ImageCfg)))
    (c : Container) : Container :=
  if c.command = [] then
    { c with
      command := (getImage images c.image).command,
      args := match c.args with
        | none => (getImage images c.image).args
        | some a => some a }
  else c

/-- One iteration of the loop at workflowpod.go lines 420-437 for a single
container: the emissary branch resolves the command, fails when it is
still empty, and prepends the wrapper; every container receives the
var-run-argo mount (line 435). -/
def emissaryContainerStep (exec : ExecutorType)
    (images : Option (List (String × ImageCfg))) (tmplName : String)
    (c : Container) : Except CtrlErr Container :=
  if exec = .emissary ∧ c.name ≠ WaitContainerName then
    let c2 := emissaryResolve images c
    if c2.command = [] then
      .error (.errMsg (emissaryNoCommandMsg c2.name tmplName))
    else
      .ok { c2 with
        command := wrapperCmd ++ c2.command,
        volumeMounts := c2.volumeMounts ++ [volumeMountVarArgo] }
  else .ok { c with volumeMounts := c.volumeMounts ++ [volumeMountVarArgo] }

/-- The loop at workflowpod.go lines 420-437 over the container list;
the first failing container aborts the whole function. -/
def emissaryPass (exec : ExecutorType)
    (images : Option (List (String × ImageCfg))) (tmplName : String) :
    List Container → Except CtrlErr (List Container)
  | [] => .ok []
  | c :: rest =>
    match emissaryContainerStep exec images tmplName c with
    | .error e => .error e
    | .ok c2 =>
      match emissaryPass exec images tmplName rest with
      | .error e => .error e
      | .ok rest2 => .ok (c2 :: rest2)

/-- A container on which the emissary executor must fail: not the wait
container, no explicit command, and no command in the image index. -/
def emissaryFails (images : Option (List (String × ImageCfg)))
    (c : Container) : Prop :=
  c.name ≠ WaitContainerName ∧ c.command = [] ∧
    (getImage images c.image).command = []

instance (images : Option (List (String × ImageCfg))) (c : Container) :
    Decidable (emissaryFails images c) := by
  unfold emissaryFails; infer_instance

/-- The successful transformation of one container under the emissary
executor (what `emissaryContainerStep` produces when it does not fail). -/
def emissaryOkStep (images : Option (List (String × ImageCfg)))
    (c : Container) : Container :=
  if c.name ≠ WaitContainerName then
    let c2 := emissaryResolve images c
    { c2 with
      command := wrapperCmd ++ c2.command,
      volumeMounts := c2.volumeMounts ++ [volumeMountVarArgo] }
  else { c with volumeMounts := c.volumeMounts ++ [volumeMountVarArgo] }

/-!
Pod spec patch (workflowpod.go lines 383-418).
-/

/-- The error text of the invalid patch failure (workflowpod.go line 406,
message shortened, still carrying the offending patch). -/
def invalidPodSpecPatchMsg (patch : String) : String :=
  "invalid podSpecPatch " ++ patch

/-- The pod spec patch block, workflowpod.go lines 383-418, over abstracted
primitives: `specJson` is the marshalled pod spec (`marshalOk` models the
marshal call failing), `mergeRes` models `util.PodSpecPatchMerge`, `subst`
models the `common.ProcessArgs` substitution pass applied to the merged
patch, `parses` models `json.Unmarshal([]byte(patch), &apiv1.PodSpec)`
succeeding, `smp` models `strategicpatch.StrategicMergePatch`, and
`unmarshal` models decoding of the merged result.  Each failure is
reported with the wrapper the source uses; note the invalid-patch failure
is a plain formatted error (`fmt.Errorf`), not a coded bad-request. -/
def podSpecPatchStage (hasPatch : Bool) (specJson : String)
    (marshalOk : Bool) (mergeRes : Except String String)
    (subst : String → Except String String) (parses : String → Bool)
    (smp : String → String → Except String String)
    (unmarshal : String → Option String) : Except CtrlErr String :=
  if hasPatch = false then .ok specJson
  else if marshalOk = false then .error (.wrap "Failed to marshal the Pod spec")
  else
    match mergeRes with
    | .error _ => .error (.wrap "Failed to merge the workflow PodSpecPatch with the template PodSpecPatch due to invalid format")
    | .ok merged =>
      match subst merged with
      | .error _ => .error (.wrap "Failed to substitute the PodSpecPatch variables")
      | .ok finalPatch =>
        if parses finalPatch = false then
          .error (.errMsg (invalidPodSpecPatchMsg finalPatch))
        else
          match smp specJson finalPatch with
          | .error _ => .error (.wrap "Error occurred during strategic merge patch")
          | .ok mergedSpec =>
            match unmarshal mergedSpec with
            | none => .error (.wrap "Error in Unmarshalling after merge the patch")
            | some newSpec => .ok newSpec

/-- The patch stage followed by the create call: the boolean records
whether the create call was reached at all. -/
def patchThenCreate (hasPatch : Bool) (specJson : String) (marshalOk : Bool)
    (mergeRes : Except String String) (subst : String → Except String String)
    (parses : String → Bool) (smp : String → String → Except String String)
    (unmarshal : String → Option String) (created : PodObj)
    (err : Option (KubeErrClass × String)) : Bool × Except CtrlErr PodObj :=
  match podSpecPatchStage hasPatch specJson marshalOk mergeRes subst parses smp unmarshal with
  | .error e => (false, .error e)
  | .ok _ => (true, finishCreate created err)

/-- True exactly when the result is an error carrying the bad-request code. -/
def exceptIsBadRequest {α : Type} : Except CtrlErr α → Bool
  | .error (.badRequest _) => true
  | _ => false

/-- True exactly when the result is an error. -/
def exceptIsError {α : Type} : Except CtrlErr α → Bool
  | .error _ => true
  | .ok _ => false

/-!
Secret volume aggregation (workflowpod.go lines 1196-1307).
-/

/-- The dedup key the source builds by string concatenation
(`secret.Name + "-" + secret.Key`, workflowpod.go lines 1285, 1304). -/
def keyId (n k : String) : String := n ++ "-" ++ k

/-- Association list from secret name to the keys already projected into
that secret volume; models `allVolumesMap` together with the Items slice
of each volume. -/
abbrev SecretVolMap := List (String × List String)

/-- Lookup in the volume map by secret name. -/
def lookupVM : SecretVolMap → String → Option (List String)
  | [], _ => none
  | e :: rest, n => if e.1 = n then some e.2 else lookupVM rest n

/-- Append a key to the item list of an existing entry; models the
aliased `vol.Secret.Items = append(vol.Secret.Items, key)` of
workflowpod.go line 1287, which mutates the entry in place. -/
def appendItemVM : SecretVolMap → String → String → SecretVolMap
  | [], _, _ => []
  | e :: rest, n, k =>
    if e.1 = n then (e.1, e.2 ++ [k]) :: rest
    else e :: appendItemVM rest n k

/-- State threaded through `createSecretVal`: the volume map and the
`uniqueKeyMap` of already-seen name-key strings. -/
structure SecretState where
  volMap : SecretVolMap := []
  keyMap : List String := []
deriving DecidableEq

/-- One call of `createSecretVal` (workflowpod.go lines 1276-1307): nil,
nameless and keyless selectors are ignored; an existing volume of the same
secret name gains one key-to-path entry unless the concatenated name-key
string was seen before; otherwise a fresh volume with one entry is created. -/
def createSecretVal (st : SecretState) : Option SecretSel → SecretState
  | none => st
  | some s =>
    if s.name = "" ∨ s.key = "" then st
    else
      match lookupVM st.volMap s.name with
      | some _ =>
        if keyId s.name s.key ∈ st.keyMap then st
        else
          { volMap := appendItemVM st.volMap s.name s.key,
            keyMap := keyId s.name s.key :: st.keyMap }
      | none =>
        { volMap := st.volMap ++ [(s.name, [s.key])],
          keyMap := keyId s.name s.key :: st.keyMap }

/-- Fold of `createSecretVal` over a list of secret references, starting
from the empty maps as `createSecretVolumes` does. -/
def runSecretVals (refs : List (Option SecretSel)) : SecretState :=
  refs.foldl createSecretVal {}

/-- The keys projected into the secret volume of a given name. -/
def itemsOf (st : SecretState) (n : String) : List String :=
  (lookupVM st.volMap n).getD []

/-- The valid (name, key) pairs of a reference list: the non-nil selectors
with nonempty name and key, in processing order. -/
def validPairs (refs : List (Option SecretSel)) : List (String × String) :=
  refs.filterMap (fun r =>
    match r with
    | none => none
    | some s => if s.name = "" ∨ s.key = "" then none else some (s.name, s.key))

/-- No two distinct valid pairs produce the same concatenated dedup key.
This is the side condition under which the string-keyed dedup of the
source coincides with dedup by (secretName, key) pair. -/
def pairwiseKeyIdInjective (ps : List (String × String)) : Prop :=
  ∀ p ∈ ps, ∀ q ∈ ps, keyId p.1 p.2 = keyId q.1 q.2 → p = q

instance (ps : List (String × String)) :
    Decidable (pairwiseKeyIdInjective ps) := by
  unfold pairwiseKeyIdInjective; infer_instance

/-- Selector list of one artifact location in the dispatch order of
`createSecretVolume` (workflowpod.go lines 1254-1274). -/
def artifactSecretSels : ArtLocation → List (Option SecretSel)
  | .noLoc => []
  | .s3 a s => [a, s]
  | .git u p k => [u, p, k]
  | .artifactory u p => [u, p]
  | .hdfs c k => [c, k]
  | .oss a s => [a, s]
  | .gcs s => [s]

/-- Selector list of the archive location in the dispatch order of
`createArchiveLocationSecret` (workflowpod.go lines 1229-1252); note HDFS
processes keytab before ccache there, unlike `createSecretVolume`. -/
def archiveLocationSecretSels : Option ArtLocation → List (Option SecretSel)
  | none => []
  | some .noLoc => []
  | some (.s3 a s) => [a, s]
  | some (.hdfs c k) => [k, c]
  | some (.artifactory u p) => [u, p]
  | some (.git u p k) => [u, p, k]
  | some (.oss a s) => [a, s]
  | some (.gcs s) => [s]

/-- All secret references of a template in the processing order of
`createSecretVolumes` (workflowpod.go lines 1196-1215): archive location,
then output artifacts, then input artifacts, then the data-source
artifact. -/
def secretRefSels (tmpl : Template) : List (Option SecretSel) :=
  archiveLocationSecretSels tmpl.archiveLocation ++
    ((tmpl.outputArtifacts.map (fun a => artifactSecretSels a.location)).flatten) ++
    ((tmpl.inputArtifacts.map (fun a => artifactSecretSels a.location)).flatten) ++
    (match tmpl.dataArt with
     | some a => artifactSecretSels a.location
     | none => [])

/-- The names of the secret volumes a template produces. -/
def secretVolNames (tmpl : Template) : List String :=
  (runSecretVals (secretRefSels tmpl)).volMap.map (fun e => e.1)

/-- The secret volumes and their mounts produced from the final map
(workflowpod.go lines 1217-1224). -/
def secretVolumesOf (tmpl : Template) : List Volume × List VolumeMount :=
  ((runSecretVals (secretRefSels tmpl)).volMap.map (fun e =>
     { name := e.1,
       source := VolumeSource.secretSrc e.1 (e.2.map (fun k => { key := k, path := k })) }),
   (runSecretVals (secretRefSels tmpl)).volMap.map (fun e =>
     { name := e.1,
       mountPath := SecretVolMountPath ++ "/" ++ e.1,
       readOnly := true }))

/-!
Volume construction and references (workflowpod.go lines 660-685 and
815-914).
-/

/-- Base volume list (`createVolumes`, workflowpod.go lines 660-685):
the optional kubeconfig secret volume, the var-run-argo volume, the docker
socket volume for the docker executor, then the template volumes appended
verbatim. -/
def createVolumes (cfg : CtrlConfig) (exec : ExecutorType) (tmpl : Template) :
    List Volume :=
  ((match cfg.kubeConfig with
    | none => []
    | some kc =>
      [{ name := if kc.volumeName = "" then KubeConfigDefaultVolumeName
                 else kc.volumeName,
         source := VolumeSource.secretSrc kc.secretName [] }]) ++
    [volumeVarArgo] ++
    (if exec = .docker then [getVolumeDockerSock cfg tmpl] else []) ++
    tmpl.volumes)

/-- The volume and container state of the pod under construction. -/
structure SynthState where
  containers : List Container := []
  initContainers : List Container := []
  volumes : List Volume := []
deriving DecidableEq

/-- The state right after the pod literal, container assembly and init
container creation (workflowpod.go lines 221-289): the init container
exists when the template has input artifacts, is a script template, or the
executor is emissary. -/
def initialSynthState (cfg : CtrlConfig) (exec : ExecutorType)
    (tmpl : Template) (logLevel : String) (mains : List Container) :
    SynthState :=
  { containers := assembleContainers cfg exec tmpl logLevel mains,
    initContainers :=
      if tmpl.inputArtifacts ≠ [] ∨ tmpl.ttype = .script ∨ exec = .emissary
      then [newInitContainer cfg logLevel] else [],
    volumes := createVolumes cfg exec tmpl }

/-- Find a volume by name. -/
def findVolByName (l : List Volume) (n : String) : Option Volume :=
  l.find? (fun v => v.name == n)

/-- Volume resolution precedence (`getVolByName`, workflowpod.go lines
825-845): template-local volumes, then workflow volumes, then PVC volumes. -/
def getVolByName (tmpl : Template) (wfVols pvcs : List Volume) (n : String) :
    Option Volume :=
  match findVolByName tmpl.volumes n with
  | some v => some v
  | none =>
    match findVolByName wfVols n with
    | some v => some v
    | none => findVolByName pvcs n

/-- The `addVolumeRef` closure (workflowpod.go lines 847-868): every mount
must resolve, and the resolved volume is appended only when no volume of
that name is present yet. -/
def addVolumeRef (tmpl : Template) (wfVols pvcs : List Volume)
    (vols : List Volume) : List VolumeMount → Except CtrlErr (List Volume)
  | [] => .ok vols
  | m :: rest =>
    match getVolByName tmpl wfVols pvcs m.name with
    | none => .error (.badRequest ("volume " ++ m.name ++ " not found in workflow spec"))
    | some v =>
      if vols.any (fun w => w.name == v.name) then
        addVolumeRef tmpl wfVols pvcs vols rest
      else addVolumeRef tmpl wfVols pvcs (vols ++ [v]) rest

/-- `addVolumeRef` applied to the mount lists of a list of containers
(workflowpod.go lines 875-887). -/
def addVolumeRefAll (tmpl : Template) (wfVols pvcs : List Volume)
    (vols : List Volume) : List (List VolumeMount) → Except CtrlErr (List Volume)
  | [] => .ok vols
  | ms :: rest =>
    match addVolumeRef tmpl wfVols pvcs vols ms with
    | .error e => .error e
    | .ok v2 => addVolumeRefAll tmpl wfVols pvcs v2 rest

/-- Append mounts to the first container satisfying the test, mirroring
the find-then-break loops of workflowpod.go lines 892-911. -/
def addMountsToFirst (p : Container → Bool) (ms : List VolumeMount) :
    List Container → List Container
  | [] => []
  | c :: rest =>
    if p c then { c with volumeMounts := c.volumeMounts ++ ms } :: rest
    else c :: addMountsToFirst p ms rest

/-- The container-bearing template types `addVolumeReferences` applies to
(workflowpod.go lines 818-822). -/
def refTypeGate : TemplateType → Bool
  | .container => true
  | .containerSet => true
  | .script => true
  | .data => true
  | _ => false

/-- `addVolumeReferences` (workflowpod.go lines 815-914): resolves the
template, init container and sidecar mounts in order, appends the secret
volumes, and mounts them on the wait container, on the init container, and
on the main container when the template has a data source. -/
def addVolumeReferencesStep (st : SynthState) (tmpl : Template)
    (wfVols pvcs : List Volume) : Except CtrlErr SynthState :=
  if refTypeGate tmpl.ttype = false then .ok st
  else
    match addVolumeRef tmpl wfVols pvcs st.volumes tmpl.tmplVolumeMounts with
    | .error e => .error e
    | .ok v1 =>
      match addVolumeRefAll tmpl wfVols pvcs v1
          (tmpl.initContainers.map (fun u => u.container.volumeMounts)) with
      | .error e => .error e
      | .ok v2 =>
        match addVolumeRefAll tmpl wfVols pvcs v2
            (tmpl.sidecars.map (fun u => u.container.volumeMounts)) with
        | .error e => .error e
        | .ok v3 =>
          .ok { containers :=
                  if tmpl.hasData then
                    addMountsToFirst (fun c => c.name == MainContainerName)
                      (secretVolumesOf tmpl).2
                      (addMountsToFirst (fun c => c.name == WaitContainerName)
                        (secretVolumesOf tmpl).2 st.containers)
                  else
                    addMountsToFirst (fun c => c.name == WaitContainerName)
                      (secretVolumesOf tmpl).2 st.containers,
                initContainers :=
                  addMountsToFirst (fun c => c.name == InitContainerName)
                    (secretVolumesOf tmpl).2 st.initContainers,
                volumes := v3 ++ (secretVolumesOf tmpl).1 }

/-!
Input artifact volumes (workflowpod.go lines 931-999).
-/

/-- The name of the shared input artifacts volume (workflowpod.go line 936). -/
def inputArtifactsVolName : String := "input-artifacts"

/-- The per-artifact decision of the main container loop (workflowpod.go
lines 975-994), for artifacts with a nonempty path: optional artifacts
without location or key get no mount, artifacts whose path overlaps a
mounted volume get no mount, every other artifact gets the shared-volume
mount at its path with its name as sub path.  `overlap` models
`common.FindOverlappingVolume(tmpl, path)`. -/
def mountFor (overlap : String → Option VolumeMount) (a : Artifact) :
    Option VolumeMount :=
  if a.hasLocationOrKey = false ∧ a.optional = true then none
  else if (overlap a.path).isSome then none
  else some { name := inputArtifactsVolName, mountPath := a.path, subPath := a.name }

/-- The loop at workflowpod.go lines 971-995 computing the mounts added to
a main container: the first artifact without a path aborts with a
bad-request error. -/
def inputArtifactMounts (overlap : String → Option VolumeMount) :
    List Artifact → Except CtrlErr (List VolumeMount)
  | [] => .ok []
  | a :: rest =>
    if a.path = "" then
      .error (.badRequest ("inputs.artifacts." ++ a.name ++ " did not specify a path"))
    else
      match mountFor overlap a with
      | none => inputArtifactMounts overlap rest
      | some m =>
        match inputArtifactMounts overlap rest with
        | .error e => .error e
        | .ok ms => .ok (m :: ms)

/-- The mounts added to the init container (workflowpod.go lines 943-960):
the artifact base dir plus the template mounts mirrored under the main
filesystem prefix, skipping Windows UNC paths.  `filepath.Join` is
modelled as concatenation (template mount paths are absolute). -/
def initArtifactMounts (tmpl : Template) (isUNC : String → Bool) :
    List VolumeMount :=
  ({ name := inputArtifactsVolName, mountPath := ExecutorArtifactBaseDir } : VolumeMount) ::
    ((tmpl.tmplVolumeMounts.filter (fun m => isUNC m.mountPath = false)).map
      (fun m => { m with mountPath := ExecutorMainFilesystemDir ++ m.mountPath }))

/-- Appends the computed artifact mounts to every container bearing the
main name (the loop at workflowpod.go lines 967-997 has no break). -/
def addArtifactMountsToMains (overlap : String → Option VolumeMount)
    (arts : List Artifact) : List Container → Except CtrlErr (List Container)
  | [] => .ok []
  | c :: rest =>
    if c.name == MainContainerName then
      match inputArtifactMounts overlap arts with
      | .error e => .error e
      | .ok ms =>
        match addArtifactMountsToMains overlap arts rest with
        | .error e => .error e
        | .ok rest2 => .ok ({ c with volumeMounts := c.volumeMounts ++ ms } :: rest2)
    else
      match addArtifactMountsToMains overlap arts rest with
      | .error e => .error e
      | .ok rest2 => .ok (c :: rest2)

/-- `addInputArtifactsVolumes` (workflowpod.go lines 931-999): no-op
without input artifacts; otherwise appends the shared emptyDir volume,
mounts it and the mirrored template mounts on the init container, and adds
the per-artifact mounts to the main containers. -/
def addInputArtifactsVolumesStep (st : SynthState) (tmpl : Template)
    (overlap : String → Option VolumeMount) (isUNC : String → Bool) :
    Except CtrlErr SynthState :=
  if tmpl.inputArtifacts = [] then .ok st
  else
    match addArtifactMountsToMains overlap tmpl.inputArtifacts st.containers with
    | .error e => .error e
    | .ok ctrs =>
      .ok { containers := ctrs,
            initContainers :=
              addMountsToFirst (fun c => c.name == InitContainerName)
                (initArtifactMounts tmpl isUNC) st.initContainers,
            volumes := st.volumes ++ [{ name := inputArtifactsVolName, source := .emptyDir }] }

/-!
Script staging volume (workflowpod.go lines 1119-1156).
-/

/-- The staging volume of script templates (workflowpod.go line 1121). -/
def argoStagingVol : Volume := { name := "argo-staging", source := .emptyDir }

/-- The staging mount (workflowpod.go lines 1131-1134 and 1143-1146). -/
def stagingMount : VolumeMount :=
  { name := "argo-staging", mountPath := ExecutorStagingEmptyDir }

/-- The main-container loop of `addScriptStagingVolume` (workflowpod.go
lines 1140-1155); `none` models the panic taken when no container carries
the main name. -/
def mountMainForStaging : List Container → Option (List Container)
  | [] => none
  | c :: rest =>
    if c.name == MainContainerName then
      some ({ c with volumeMounts := c.volumeMounts ++ [stagingMount] } :: rest)
    else
      match mountMainForStaging rest with
      | none => none
      | some rest2 => some (c :: rest2)

/-- `addScriptStagingVolume` (workflowpod.go lines 1119-1156): appends the
staging volume, mounts it on the init container, and mounts it on the
first main container; `none` models the panic. -/
def addScriptStagingVolume (st : SynthState) : Option SynthState :=
  match mountMainForStaging st.containers with
  | none => none
  | some ctrs =>
    some { containers := ctrs,
           initContainers :=
             addMountsToFirst (fun c => c.name == InitContainerName)
               [stagingMount] st.initContainers,
           volumes := st.volumes ++ [argoStagingVol] }

/-!
Composed pipelines used by the claims.
-/

/-- The volume-relevant pipeline of `createWorkflowPod`: initial state
(assembly and `createVolumes`), `addVolumeReferences`, then
`addInputArtifactsVolumes` (workflowpod.go lines 221-302). -/
def volumesPipeline (cfg : CtrlConfig) (exec : ExecutorType) (tmpl : Template)
    (logLevel : String) (mains : List Container) (wfVols pvcs : List Volume)
    (overlap : String → Option VolumeMount) (isUNC : String → Bool) :
    Except CtrlErr SynthState :=
  match addVolumeReferencesStep (initialSynthState cfg exec tmpl logLevel mains)
      tmpl wfVols pvcs with
  | .error e => .error e
  | .ok st1 => addInputArtifactsVolumesStep st1 tmpl overlap isUNC

/-- The names of a volume list. -/
def volNames (l : List Volume) : List String := l.map (fun v => v.name)

/-- The candidate names any resolved volume reference can contribute. -/
def poolNames (tmpl : Template) (wfVols pvcs : List Volume) : List String :=
  volNames tmpl.volumes ++ volNames wfVols ++ volNames pvcs

/-- Decidable observation for the volume uniqueness claim: after the
volume pipeline, are all volume names distinct?  Errors count as vacuously
distinct (no descriptor was assembled). -/
def pipelineVolNamesDistinct (cfg : CtrlConfig) (exec : ExecutorType)
    (tmpl : Template) (logLevel : String) (mains : List Container)
    (wfVols pvcs : List Volume) (overlap : String → Option VolumeMount)
    (isUNC : String → Bool) : Bool :=
  match volumesPipeline cfg exec tmpl logLevel mains wfVols pvcs overlap isUNC with
  | .error _ => true
  | .ok st => decide (volNames st.volumes).Nodup

/-- Observation for the script staging claim: does the pipeline reach
`addScriptStagingVolume` and hit its panic? -/
def stagingPanics (cfg : CtrlConfig) (exec : ExecutorType) (tmpl : Template)
    (logLevel : String) (mains : List Container) (wfVols pvcs : List Volume)
    (overlap : String → Option VolumeMount) (isUNC : String → Bool) : Bool :=
  match volumesPipeline cfg exec tmpl logLevel mains wfVols pvcs overlap isUNC with
  | .error _ => false
  | .ok st => (addScriptStagingVolume st).isNone

/-- Invariant of the secret aggregation state that holds unconditionally:
every projected key is registered in the key map, item lists are
duplicate-free, and there is at most one volume per secret name. -/
def SecretBasicInvariant (st : SecretState) : Prop :=
  (∀ n k, k ∈ itemsOf st n → keyId n k ∈ st.keyMap) ∧
  (∀ n, (itemsOf st n).Nodup) ∧
  (st.volMap.map (fun e => e.1)).Nodup

/-- Exact characterization of the secret aggregation state relative to the
multiset of valid pairs processed so far; it holds when the concatenated
dedup keys of the processed pairs do not collide. -/
def SecretInvariant (st : SecretState) (ps : List (String × String)) : Prop :=
  (∀ n k, k ∈ itemsOf st n ↔ (n, k) ∈ ps) ∧
  (∀ s, s ∈ st.keyMap ↔ ∃ p ∈ ps, s = keyId p.1 p.2) ∧
  (∀ n, (lookupVM st.volMap n).isSome ↔ ∃ k, (n, k) ∈ ps)

/-!
Concrete inputs used by counterexamples.
-/

/-- A main container carrying the debug pause marker. -/
def debugCtr : Container :=
  { name := "main", image := "img",
    env := [{ name := "ARGO_DEBUG_PAUSE_BEFORE", value := "true" }] }

/-- Secret references whose concatenated dedup keys collide although the
pairs are distinct. -/
def collidingRefs : List (Option SecretSel) :=
  [some { name := "a-b", key := "x" },
   some { name := "a", key := "b-c" },
   some { name := "a-b", key := "c" }]

/-- A template declaring a volume that reuses the reserved var-run-argo
name. -/
def clashingTmpl : Template :=
  { name := "t", ttype := .container,
    volumes := [{ name := "var-run-argo", source := .emptyDir }] }

/-!
Theorems.
-/

/-- C1: on the final create call, an already-exists response is treated as
success and returns the object the cluster call yielded with a nil error;
a transient error is propagated unchanged (same class and message, not
wrapped); any other error is wrapped as an internal error; a clean create
returns the created object. -/
theorem create_error_dispatch (p : PodObj) (m : String) :
    finishCreate p (some (.alreadyExists, m)) = .ok p ∧
    finishCreate p (some (.transient, m)) = .error (.kube .transient m) ∧
    finishCreate p (some (.otherErr, m)) = .error (.internal m) ∧
    finishCreate p none = .ok p :=
  ⟨rfl, rfl, rfl, rfl⟩

/-- C2: for a non-exit-handler pod with a configured workflow deadline, an
elapsed relative deadline makes synthesis return nil pod and nil error;
otherwise the computed activeDeadlineSeconds is the minimum of the
workflow-relative deadline and the template deadline (the workflow value
alone when the template has none); without a workflow deadline, or for an
exit-handler pod, the template value is used alone. -/
theorem deadline_resolution_rules (w : Int) (tmplADS : Option Int)
    (wfRel : Option Int) :
    (w ≤ 0 → resolveDeadline (some w) false tmplADS = .skipNoPodNoError) ∧
    (0 < w → resolveDeadline (some w) false tmplADS =
      .proceed (some (match tmplADS with | none => w | some t => min w t))) ∧
    (∀ onExit : Bool, resolveDeadline none onExit tmplADS = .proceed tmplADS) ∧
    resolveDeadline wfRel true tmplADS = .proceed tmplADS := by
  refine ⟨?_, ?_, ?_, ?_⟩
  · intro h
    simp [resolveDeadline, h]
  · intro h
    have h2 : ¬ w ≤ 0 := by omega
    cases tmplADS with
    | none => simp [resolveDeadline, h2]
    | some t =>
      by_cases hw : w < t
      · simp only [resolveDeadline, Bool.false_eq_true, if_false, if_neg h2, if_pos hw]
        have : w = min w t := by omega
        rw [← this]
      · simp only [resolveDeadline, Bool.false_eq_true, if_false, if_neg h2, if_neg hw]
        have : t = min w t := by omega
        rw [← this]
  · intro onExit
    simp [resolveDeadline]
  · cases wfRel with
    | none => simp [resolveDeadline]
    | some w2 => simp [resolveDeadline]

/-- Witness for C2 at the spec example: workflow deadline 60s, template
deadline 30s gives 30s; an elapsed workflow deadline gives the nil-nil
return. -/
theorem deadline_resolution_rules_witness :
    ((-5 : Int) ≤ 0 ∧
      resolveDeadline (some (-5)) false (some 30) = .skipNoPodNoError) ∧
    ((0 : Int) < 60 ∧
      resolveDeadline (some 60) false (some 30) = .proceed (some (min 60 30))) :=
  ⟨⟨by decide, (deadline_resolution_rules (-5) (some 30) none).1 (by decide)⟩,
   ⟨by decide, (deadline_resolution_rules 60 (some 30) none).2.1 (by decide)⟩⟩

/-- C7 (amended): a debug pause marker clears the resolved
activeDeadlineSeconds whatever the workflow deadline, template deadline
and exit-handler flag were, and the created pod keeps a nil deadline
whenever no separate template timeout is configured; the post-assembly
template-timeout check may still set the field (see the counterexample).
The execution-deadline override never flows into this field at all, only
into the deadline environment variable. -/
theorem debug_pause_clears_deadline (wfRel : Option Int) (onExit : Bool)
    (tmplADS : Option Int) (mainCtrs : List Container) (ads : Option Int)
    (now : Int) (nodeName : String)
    (h : mainCtrs.any hasDebugPause = true) :
    debugOverride mainCtrs ads = none ∧
    (finalADS wfRel onExit tmplADS mainCtrs now none nodeName = .created none ∨
     finalADS wfRel onExit tmplADS mainCtrs now none nodeName = .skipNoPodNoError) := by
  constructor
  · simp [debugOverride, h]
  · unfold finalADS
    cases hr : resolveDeadline wfRel onExit tmplADS with
    | skipNoPodNoError => right; rfl
    | proceed a =>
      left
      simp [debugOverride, h, applyTemplateDeadline]

/-- Witness for C7: a concrete debug-marked container with both deadlines
configured still yields a nil deadline when no template timeout is set. -/
theorem debug_pause_clears_deadline_witness :
    [debugCtr].any hasDebugPause = true ∧
    debugOverride [debugCtr] (some 30) = none ∧
    (finalADS (some 60) false (some 30) [debugCtr] 0 none "step" = .created none ∨
     finalADS (some 60) false (some 30) [debugCtr] 0 none "step" = .skipNoPodNoError) :=
  ⟨by decide,
   (debug_pause_clears_deadline (some 60) false (some 30) [debugCtr] (some 30) 0 "step" (by decide)).1,
   (debug_pause_clears_deadline (some 60) false (some 30) [debugCtr] (some 30) 0 "step" (by decide)).2⟩

/-- C7 counterexample: with a debug pause marker present and a template
timeout of 100 seconds remaining, the created pod carries
activeDeadlineSeconds 100, not nil - the template-timeout check at
workflowpod.go lines 450-457 runs regardless of the debug markers. -/
theorem debug_pause_deadline_counterexample :
    [debugCtr].any hasDebugPause = true ∧
    finalADS none false none [debugCtr] 0 (some 100) "step" = .created (some 100) := by
  refine ⟨by decide, by decide⟩

/-- C3: resource and data templates assemble no wait container; every
other template type assembles the wait container strictly before all main
containers (it is the head of the list); and the PNS executor sets
process-namespace sharing on the pod spec. -/
theorem container_assembly_rules (cfg : CtrlConfig) (exec : ExecutorType)
    (tmpl : Template) (lvl : String) (mains : List Container) :
    ((tmpl.ttype = .resource ∨ tmpl.ttype = .data) →
      ∀ c ∈ assembleContainers cfg exec tmpl lvl mains, c.name ≠ WaitContainerName) ∧
    (¬(tmpl.ttype = .resource ∨ tmpl.ttype = .data) →
      assembleContainers cfg exec tmpl lvl mains =
        newWaitContainer cfg exec tmpl lvl :: renameMainCtrs tmpl.ttype mains ∧
      (newWaitContainer cfg exec tmpl lvl).name = WaitContainerName) ∧
    (exec = .pns → shareProcessNamespaceField exec = some true) := by
  refine ⟨?_, ?_, ?_⟩
  · intro ht c hc
    have hcs : tmpl.ttype ≠ .containerSet := by
      rcases ht with h | h <;> simp [h]
    simp only [assembleContainers, if_pos ht, List.nil_append] at hc
    simp only [renameMainCtrs, List.mem_map] at hc
    obtain ⟨c0, _, hc0⟩ := hc
    rw [if_pos (Or.inr hcs)] at hc0
    rw [← hc0]
    intro hEq
    exact absurd (show MainContainerName = WaitContainerName from hEq) (by decide)
  · intro ht
    refine ⟨by simp [assembleContainers, if_neg ht], ?_⟩
    unfold newWaitContainer
    split <;> rfl
  · intro h
    simp [shareProcessNamespaceField, h]

/-- Witness for C3: a resource template assembles no wait container, a
container template assembles wait first, and PNS shares the process
namespace. -/
theorem container_assembly_rules_witness :
    (∀ c ∈ assembleContainers {} .emissary { ttype := .resource } "info"
        [{ name := "x", image := "img" }], c.name ≠ WaitContainerName) ∧
    (assembleContainers {} .pns { ttype := .container } "info" [{ image := "img" }] =
      newWaitContainer {} .pns { ttype := .container } "info" ::
        renameMainCtrs .container [{ image := "img" }]) ∧
    shareProcessNamespaceField .pns = some true :=
  ⟨(container_assembly_rules {} .emissary { ttype := .resource } "info"
      [{ name := "x", image := "img" }]).1 (Or.inl rfl),
   ((container_assembly_rules {} .pns { ttype := .container } "info"
      [{ image := "img" }]).2.1 (by decide)).1,
   (container_assembly_rules {} .pns { ttype := .container } "info"
      [{ image := "img" }]).2.2 rfl⟩

/-- C9 (amended): a template-level patch that does not parse as a pod spec
makes the function fail with the descriptive invalid-podSpecPatch error (a
plain formatted error, not one carrying the bad-request code) before any
create call; a failing merge is rejected with its descriptive wrapped
error, likewise before any create call. -/
theorem patch_rejection_behavior (specJson : String)
    (mergeRes : Except String String) (subst : String → Except String String)
    (parses : String → Bool) (smp : String → String → Except String String)
    (unmarshal : String → Option String) (created : PodObj)
    (err : Option (KubeErrClass × String)) :
    (∀ merged finalPatch, mergeRes = .ok merged → subst merged = .ok finalPatch →
      parses finalPatch = false →
      patchThenCreate true specJson true mergeRes subst parses smp unmarshal created err =
        (false, .error (.errMsg (invalidPodSpecPatchMsg finalPatch)))) ∧
    (∀ m, mergeRes = .error m →
      patchThenCreate true specJson true mergeRes subst parses smp unmarshal created err =
        (false, .error (.wrap "Failed to merge the workflow PodSpecPatch with the template PodSpecPatch due to invalid format"))) := by
  constructor
  · intro merged finalPatch hm hs hp
    simp [patchThenCreate, podSpecPatchStage, hm, hs, hp]
  · intro m hm
    simp [patchThenCreate, podSpecPatchStage, hm]

/-- Witness for C9: a concrete patch rejected by the pod-spec parser makes
the pipeline fail with the invalid-patch error without reaching the create
call. -/
theorem patch_rejection_behavior_witness :
    patchThenCreate true "spec" true (.ok "mp") (fun p => .ok p) (fun _ => false)
      (fun _ _ => .ok "") (fun _ => some "") { name := "p" } none =
      (false, .error (.errMsg (invalidPodSpecPatchMsg "mp"))) :=
  (patch_rejection_behavior "spec" (.ok "mp") (fun p => .ok p) (fun _ => false)
    (fun _ _ => .ok "") (fun _ => some "") { name := "p" } none).1 "mp" "mp" rfl rfl rfl

/-- C9 counterexample: the invalid-patch failure is an error, but not a
bad-request-coded error - workflowpod.go line 406 uses a plain formatted
error while bad-request errors elsewhere in the file carry
`errors.CodeBadRequest`. -/
theorem patch_badRequest_counterexample :
    exceptIsError (podSpecPatchStage true "spec" true (.ok "patch")
      (fun p => .ok p) (fun _ => false) (fun _ _ => .ok "") (fun _ => some "")) = true ∧
    exceptIsBadRequest (podSpecPatchStage true "spec" true (.ok "patch")
      (fun p => .ok p) (fun _ => false) (fun _ _ => .ok "") (fun _ => some "")) = false :=
  ⟨rfl, rfl⟩

/-- Resolution does not change the container name. -/
theorem emissaryResolve_name (images : Option (List (String × ImageCfg)))
    (c : Container) : (emissaryResolve images c).name = c.name := by
  unfold emissaryResolve
  split <;> rfl

/-- A container that does not fail the emissary check is transformed by
`emissaryOkStep`. -/
theorem emissaryContainerStep_ok (images : Option (List (String × ImageCfg)))
    (tmplName : String) (c : Container) (h : ¬ emissaryFails images c) :
    emissaryContainerStep .emissary images tmplName c = .ok (emissaryOkStep images c) := by
  unfold emissaryContainerStep emissaryOkStep
  by_cases hw : c.name = WaitContainerName
  · rw [if_neg (by simp [hw]), if_neg (by simp [hw])]
  · rw [if_pos ⟨rfl, hw⟩, if_pos hw]
    have hcmd : (emissaryResolve images c).command ≠ [] := by
      unfold emissaryFails at h
      push_neg at h
      by_cases hc : c.command = []
      · unfold emissaryResolve
        rw [if_pos hc]
        exact h hw hc
      · unfold emissaryResolve
        rw [if_neg hc]
        exact hc
    rw [if_neg hcmd]

/-- A container that fails the emissary check produces the error naming
the container and the template. -/
theorem emissaryContainerStep_fail (images : Option (List (String × ImageCfg)))
    (tmplName : String) (c : Container) (h : emissaryFails images c) :
    emissaryContainerStep .emissary images tmplName c =
      .error (.errMsg (emissaryNoCommandMsg c.name tmplName)) := by
  obtain ⟨h1, h2, h3⟩ := h
  unfold emissaryContainerStep
  rw [if_pos ⟨rfl, h1⟩]
  have hcmd : (emissaryResolve images c).command = [] := by
    unfold emissaryResolve
    rw [if_pos h2]
    exact h3
  rw [if_pos hcmd, emissaryResolve_name]

/-- C8: under the emissary executor, when no non-wait container both lacks
a command and misses an image-index entry, the pass succeeds and maps every
container through the resolution-and-wrap transform; when some container
fails that way, the pass fails with the error naming such a container and
the template; and the transform of a non-wait container without an
explicit command is exactly the fixed wrapper prepended to the command
resolved from the image index. -/
theorem emissary_command_resolution (images : Option (List (String × ImageCfg)))
    (tmplName : String) (ctrs : List Container) :
    ((∀ c ∈ ctrs, ¬ emissaryFails images c) →
      emissaryPass .emissary images tmplName ctrs =
        .ok (ctrs.map (emissaryOkStep images))) ∧
    ((∃ c ∈ ctrs, emissaryFails images c) →
      ∃ c ∈ ctrs, emissaryFails images c ∧
        emissaryPass .emissary images tmplName ctrs =
          .error (.errMsg (emissaryNoCommandMsg c.name tmplName))) ∧
    (∀ c : Container, c.name ≠ WaitContainerName → c.command = [] →
      (emissaryOkStep images c).command =
        wrapperCmd ++ (getImage images c.image).command) := by
  refine ⟨?_, ?_, ?_⟩
  · induction ctrs with
    | nil => intro h; rfl
    | cons c rest ih =>
      intro h
      have hc := h c (List.mem_cons_self c rest)
      have hrest : ∀ x ∈ rest, ¬ emissaryFails images x :=
        fun x hx => h x (List.mem_cons_of_mem _ hx)
      simp [emissaryPass, emissaryContainerStep_ok images tmplName c hc, ih hrest]
  · induction ctrs with
    | nil => intro h; simp at h
    | cons c rest ih =>
      intro h
      by_cases hc : emissaryFails images c
      · exact ⟨c, List.mem_cons_self c rest, hc,
          by simp [emissaryPass, emissaryContainerStep_fail images tmplName c hc]⟩
      · have hrest : ∃ x ∈ rest, emissaryFails images x := by
          rcases h with ⟨y, hy, hfy⟩
          rcases List.mem_cons.mp hy with rfl | hy2
          · exact absurd hfy hc
          · exact ⟨y, hy2, hfy⟩
        obtain ⟨z, hz, hfz, hez⟩ := ih hrest
        refine ⟨z, List.mem_cons_of_mem _ hz, hfz, ?_⟩
        simp [emissaryPass, emissaryContainerStep_ok images tmplName c hc, hez]
  · intro c h1 h2
    unfold emissaryOkStep
    rw [if_pos h1]
    unfold emissaryResolve
    rw [if_pos h2]

/-- Witness for C8: with the image indexed, a commandless main container is
wrapped; without an index entry the pass fails naming the container and
template; the transform prepends the wrapper to the indexed command. -/
theorem emissary_command_resolution_witness :
    (emissaryPass .emissary (some [("img", { command := ["run"] })]) "tpl"
       [{ name := "m", image := "img" }] =
      .ok ([({ name := "m", image := "img" } : Container)].map
        (emissaryOkStep (some [("img", { command := ["run"] })])))) ∧
    (∃ c ∈ [({ name := "m", image := "img" } : Container)], emissaryFails none c ∧
      emissaryPass .emissary none "tpl" [{ name := "m", image := "img" }] =
        .error (.errMsg (emissaryNoCommandMsg c.name "tpl"))) ∧
    (emissaryOkStep (some [("img", { command := ["run"] })])
        { name := "m", image := "img" }).command =
      wrapperCmd ++ (getImage (some [("img", { command := ["run"] })]) "img").command :=
  ⟨(emissary_command_resolution (some [("img", { command := ["run"] })]) "tpl"
      [{ name := "m", image := "img" }]).1 (by decide),
   (emissary_command_resolution none "tpl" [{ name := "m", image := "img" }]).2.1
     ⟨{ name := "m", image := "img" }, by decide, by decide⟩,
   (emissary_command_resolution (some [("img", { command := ["run"] })]) "tpl" []).2.2
     { name := "m", image := "img" } (by decide) rfl⟩

/-- C6: an artifact whose path overlaps a mounted volume contributes no
mount to the main container; an optional artifact without location or key
contributes no mount; when all artifacts have paths the loop returns
exactly the mounts of the non-skipped artifacts; and any artifact with an
empty path makes the loop fail with a bad-request error. -/
theorem input_artifact_mount_rules (arts : List Artifact)
    (overlap : String → Option VolumeMount) :
    (∀ a : Artifact, (overlap a.path).isSome = true → mountFor overlap a = none) ∧
    (∀ a : Artifact, a.optional = true → a.hasLocationOrKey = false →
      mountFor overlap a = none) ∧
    ((∀ a ∈ arts, a.path ≠ "") →
      inputArtifactMounts overlap arts = .ok (arts.filterMap (mountFor overlap))) ∧
    ((∃ a ∈ arts, a.path = "") →
      exceptIsBadRequest (inputArtifactMounts overlap arts) = true) := by
  refine ⟨?_, ?_, ?_, ?_⟩
  · intro a h
    unfold mountFor
    by_cases h1 : a.hasLocationOrKey = false ∧ a.optional = true
    · rw [if_pos h1]
    · rw [if_neg h1, if_pos h]
  · intro a h1 h2
    unfold mountFor
    rw [if_pos ⟨h2, h1⟩]
  · induction arts with
    | nil => intro h; rfl
    | cons a rest ih =>
      intro h
      have ha := h a (List.mem_cons_self a rest)
      have hrest : ∀ x ∈ rest, x.path ≠ "" :=
        fun x hx => h x (List.mem_cons_of_mem _ hx)
      simp only [inputArtifactMounts, if_neg ha]
      cases hm : mountFor overlap a with
      | none => simp [List.filterMap_cons, hm, ih hrest]
      | some m => simp [List.filterMap_cons, hm, ih hrest]
  · induction arts with
    | nil => intro h; simp at h
    | cons a rest ih =>
      intro h
      by_cases hp : a.path = ""
      · simp [inputArtifactMounts, hp, exceptIsBadRequest]
      · have hrest : ∃ x ∈ rest, x.path = "" := by
          rcases h with ⟨y, hy, hpy⟩
          rcases List.mem_cons.mp hy with rfl | hy2
          · exact absurd hpy hp
          · exact ⟨y, hy2, hpy⟩
        have ihr := ih hrest
        simp only [inputArtifactMounts, if_neg hp]
        cases hm : mountFor overlap a with
        | none => exact ihr
        | some m =>
          cases hrc : inputArtifactMounts overlap rest with
          | error e =>
            rw [hrc] at ihr
            simpa using ihr
          | ok ms =>
            rw [hrc] at ihr
            simp [exceptIsBadRequest] at ihr

/-- Witness for C6: the spec overlap example (artifact at /data/sub with a
volume at /data) yields no mount, an optional location-less artifact yields
no mount, a well-formed list returns exactly the non-skipped mounts, and an
artifact without a path yields the bad-request failure. -/
theorem input_artifact_mount_rules_witness :
    mountFor (fun p => if p = "/data/sub" then
        some { name := "vol", mountPath := "/data" } else none)
      { name := "code", path := "/data/sub", hasLocationOrKey := true } = none ∧
    mountFor (fun p => if p = "/data/sub" then
        some { name := "vol", mountPath := "/data" } else none)
      { name := "opt", path := "/x", optional := true } = none ∧
    inputArtifactMounts (fun p => if p = "/data/sub" then
        some { name := "vol", mountPath := "/data" } else none)
      [{ name := "code", path := "/data/sub", hasLocationOrKey := true },
       { name := "opt", path := "/x", optional := true },
       { name := "inp", path := "/y", hasLocationOrKey := true }] =
      .ok ([{ name := "code", path := "/data/sub", hasLocationOrKey := true },
            { name := "opt", path := "/x", optional := true },
            { name := "inp", path := "/y", hasLocationOrKey := true }].filterMap
        (mountFor (fun p => if p = "/data/sub" then
          some { name := "vol", mountPath := "/data" } else none))) ∧
    exceptIsBadRequest (inputArtifactMounts (fun _ => none)
      [{ name := "bad" }]) = true :=
  ⟨(input_artifact_mount_rules [] (fun p => if p = "/data/sub" then
      some { name := "vol", mountPath := "/data" } else none)).1
      { name := "code", path := "/data/sub", hasLocationOrKey := true } (by decide),
   (input_artifact_mount_rules [] (fun p => if p = "/data/sub" then
      some { name := "vol", mountPath := "/data" } else none)).2.1
      { name := "opt", path := "/x", optional := true } rfl rfl,
   (input_artifact_mount_rules
      [{ name := "code", path := "/data/sub", hasLocationOrKey := true },
       { name := "opt", path := "/x", optional := true },
       { name := "inp", path := "/y", hasLocationOrKey := true }]
      (fun p => if p = "/data/sub" then
        some { name := "vol", mountPath := "/data" } else none)).2.2.1 (by decide),
   (input_artifact_mount_rules [{ name := "bad" }] (fun _ => none)).2.2.2
     ⟨{ name := "bad" }, by decide, rfl⟩⟩

/-- Mount insertion never changes container names. -/
theorem addMountsToFirst_names (p : Container → Bool) (ms : List VolumeMount) :
    ∀ l : List Container,
      (addMountsToFirst p ms l).map (fun c => c.name) = l.map (fun c => c.name) := by
  intro l
  induction l with
  | nil => rfl
  | cons c rest ih =>
    unfold addMountsToFirst
    by_cases hc : p c
    · rw [if_pos hc]
      rfl
    · rw [if_neg hc]
      simp [ih]

/-- Adding artifact mounts to the main containers never changes names. -/
theorem addArtifactMountsToMains_names (overlap : String → Option VolumeMount)
    (arts : List Artifact) :
    ∀ l l2, addArtifactMountsToMains overlap arts l = .ok l2 →
      l2.map (fun c => c.name) = l.map (fun c => c.name) := by
  intro l
  induction l with
  | nil =>
    intro l2 h
    cases h
    rfl
  | cons c rest ih =>
    intro l2 h
    unfold addArtifactMountsToMains at h
    by_cases hc : (c.name == MainContainerName) = true
    · rw [if_pos hc] at h
      cases hm : inputArtifactMounts overlap arts with
      | error e => rw [hm] at h; cases h
      | ok ms =>
        rw [hm] at h
        cases hr : addArtifactMountsToMains overlap arts rest with
        | error e => rw [hr] at h; cases h
        | ok rest2 =>
          rw [hr] at h
          cases h
          simp [ih rest2 hr]
    · rw [if_neg hc] at h
      cases hr : addArtifactMountsToMains overlap arts rest with
      | error e => rw [hr] at h; cases h
      | ok rest2 =>
        rw [hr] at h
        cases h
        simp [ih rest2 hr]

/-- The volume reference stage never changes container names. -/
theorem addVolumeReferencesStep_names (st : SynthState) (tmpl : Template)
    (wfVols pvcs : List Volume) (st2 : SynthState)
    (h : addVolumeReferencesStep st tmpl wfVols pvcs = .ok st2) :
    st2.containers.map (fun c => c.name) = st.containers.map (fun c => c.name) := by
  unfold addVolumeReferencesStep at h
  split at h
  · cases h
    rfl
  · split at h
    · cases h
    · split at h
      · cases h
      · split at h
        · cases h
        · cases h
          by_cases hd : tmpl.hasData = true
          · simp [hd, addMountsToFirst_names]
          · simp [hd, addMountsToFirst_names]

/-- The input artifact stage never changes container names. -/
theorem addInputArtifactsVolumesStep_names (st : SynthState) (tmpl : Template)
    (overlap : String → Option VolumeMount) (isUNC : String → Bool)
    (st2 : SynthState)
    (h : addInputArtifactsVolumesStep st tmpl overlap isUNC = .ok st2) :
    st2.containers.map (fun c => c.name) = st.containers.map (fun c => c.name) := by
  unfold addInputArtifactsVolumesStep at h
  by_cases he : tmpl.inputArtifacts = []
  · rw [if_pos he] at h
    cases h
    rfl
  · rw [if_neg he] at h
    cases hm : addArtifactMountsToMains overlap tmpl.inputArtifacts st.containers with
    | error e => rw [hm] at h; cases h
    | ok ctrs =>
      rw [hm] at h
      cases h
      exact addArtifactMountsToMains_names overlap tmpl.inputArtifacts
        st.containers ctrs hm

/-- The staging loop finds a main container whenever one is present. -/
theorem mountMainForStaging_isSome :
    ∀ l : List Container, MainContainerName ∈ l.map (fun c => c.name) →
      (mountMainForStaging l).isSome = true := by
  intro l
  induction l with
  | nil =>
    intro h
    simp at h
  | cons c rest ih =>
    intro h
    unfold mountMainForStaging
    by_cases hc : (c.name == MainContainerName) = true
    · rw [if_pos hc]
      rfl
    · rw [if_neg hc]
      have hmem : MainContainerName ∈ rest.map (fun c => c.name) := by
        simp only [List.map_cons, List.mem_cons] at h
        rcases h with h | h
        · exact absurd (beq_iff_eq.mpr h.symm) hc
        · exact h
      have hs := ih hmem
      cases hm : mountMainForStaging rest with
      | none =>
        rw [hm] at hs
        simp at hs
      | some r2 => rfl

/-- A nonempty main list of a non-containerSet template always assembles a
container carrying the main name. -/
theorem assembled_has_main (cfg : CtrlConfig) (exec : ExecutorType)
    (tmpl : Template) (lvl : String) (mains : List Container)
    (hne : mains ≠ []) (hcs : tmpl.ttype ≠ .containerSet) :
    MainContainerName ∈
      (assembleContainers cfg exec tmpl lvl mains).map (fun c => c.name) := by
  cases mains with
  | nil => exact absurd rfl hne
  | cons m rest =>
    unfold assembleContainers
    rw [List.map_append]
    apply List.mem_append_right
    unfold renameMainCtrs
    simp only [List.map_cons, List.map_map, Function.comp_apply]
    rw [if_pos (Or.inr hcs)]
    exact List.mem_cons_self _ _

/-- C10: for a script template with at least one supplied main container,
the pipeline state reaching `addScriptStagingVolume` always contains a
container with the canonical main name, so the panic branch of that
function is unreachable. -/
theorem script_staging_no_panic (cfg : CtrlConfig) (exec : ExecutorType)
    (tmpl : Template) (lvl : String) (mains : List Container)
    (wfVols pvcs : List Volume) (overlap : String → Option VolumeMount)
    (isUNC : String → Bool) (hscript : tmpl.ttype = .script)
    (hne : mains ≠ []) :
    stagingPanics cfg exec tmpl lvl mains wfVols pvcs overlap isUNC = false := by
  unfold stagingPanics
  cases hpl : volumesPipeline cfg exec tmpl lvl mains wfVols pvcs overlap isUNC with
  | error e => rfl
  | ok st =>
    show (addScriptStagingVolume st).isNone = false
    have hnames : MainContainerName ∈ st.containers.map (fun c => c.name) := by
      unfold volumesPipeline at hpl
      split at hpl
      · cases hpl
      · rename_i st1 h2
        have e2 := addInputArtifactsVolumesStep_names st1 tmpl overlap isUNC st hpl
        have e1 := addVolumeReferencesStep_names
          (initialSynthState cfg exec tmpl lvl mains) tmpl wfVols pvcs st1 h2
        rw [e2, e1]
        exact assembled_has_main cfg exec tmpl lvl mains hne
          (by rw [hscript]; decide)
    have hsome := mountMainForStaging_isSome st.containers hnames
    unfold addScriptStagingVolume
    cases hm : mountMainForStaging st.containers with
    | none =>
      rw [hm] at hsome
      simp at hsome
    | some ctrs => rfl

/-- Witness for C10: a concrete script template with one main container
runs the pipeline without hitting the staging panic. -/
theorem script_staging_no_panic_witness :
    stagingPanics {} .emissary { name := "t", ttype := .script } "info"
      [{ image := "img" }] [] [] (fun _ => none) (fun _ => false) = false :=
  script_staging_no_panic {} .emissary { name := "t", ttype := .script } "info"
    [{ image := "img" }] [] [] (fun _ => none) (fun _ => false) rfl (by decide)

/-- Appending a key to an existing entry updates exactly that entry. -/
theorem lookupVM_appendItemVM_self :
    ∀ (vm : SecretVolMap) (n k : String) (its : List String),
      lookupVM vm n = some its →
      lookupVM (appendItemVM vm n k) n = some (its ++ [k]) := by
  intro vm n k
  induction vm with
  | nil =>
    intro its h
    cases h
  | cons e rest ih =>
    intro its h
    by_cases he : e.1 = n
    · unfold lookupVM at h
      rw [if_pos he] at h
      injection h with h2
      unfold appendItemVM
      rw [if_pos he]
      unfold lookupVM
      rw [if_pos he, h2]
    · unfold lookupVM at h
      rw [if_neg he] at h
      unfold appendItemVM
      rw [if_neg he]
      unfold lookupVM
      rw [if_neg he]
      exact ih its h

/-- Appending a key to one entry leaves lookups of other names unchanged. -/
theorem lookupVM_appendItemVM_other :
    ∀ (vm : SecretVolMap) (n k m : String), m ≠ n →
      lookupVM (appendItemVM vm n k) m = lookupVM vm m := by
  intro vm n k
  induction vm with
  | nil =>
    intro m _
    rfl
  | cons e rest ih =>
    intro m hm
    by_cases he : e.1 = n
    · unfold appendItemVM
      rw [if_pos he]
      unfold lookupVM
      by_cases hem : e.1 = m
      · exact absurd (hem.symm.trans he) hm
      · rw [if_neg hem, if_neg hem]
    · unfold appendItemVM
      rw [if_neg he]
      unfold lookupVM
      by_cases hem : e.1 = m
      · rw [if_pos hem, if_pos hem]
      · rw [if_neg hem, if_neg hem]
        exact ih m hm

/-- In-place item appends keep the key list of the map unchanged. -/
theorem appendItemVM_keys :
    ∀ (vm : SecretVolMap) (n k : String),
      (appendItemVM vm n k).map (fun e => e.1) = vm.map (fun e => e.1) := by
  intro vm n k
  induction vm with
  | nil => rfl
  | cons e rest ih =>
    unfold appendItemVM
    by_cases he : e.1 = n
    · rw [if_pos he]
      rfl
    · rw [if_neg he]
      simp [ih]

/-- Looking up the name of a freshly appended entry that was absent. -/
theorem lookupVM_append_of_none :
    ∀ (vm : SecretVolMap) (x : String × List String),
      lookupVM vm x.1 = none → lookupVM (vm ++ [x]) x.1 = some x.2 := by
  intro vm x
  induction vm with
  | nil =>
    intro _
    show lookupVM [x] x.1 = some x.2
    simp [lookupVM]
  | cons e rest ih =>
    intro h
    simp only [lookupVM] at h
    show lookupVM (e :: (rest ++ [x])) x.1 = some x.2
    simp only [lookupVM]
    by_cases he : e.1 = x.1
    · rw [if_pos he] at h
      cases h
    · rw [if_neg he] at h
      rw [if_neg he]
      exact ih h

/-- Appending an entry leaves lookups of other names unchanged. -/
theorem lookupVM_append_other :
    ∀ (vm : SecretVolMap) (x : String × List String) (m : String), x.1 ≠ m →
      lookupVM (vm ++ [x]) m = lookupVM vm m := by
  intro vm x m hm
  induction vm with
  | nil =>
    show lookupVM [x] m = none
    simp only [lookupVM, if_neg hm]
  | cons e rest ih =>
    show lookupVM (e :: (rest ++ [x])) m = lookupVM (e :: rest) m
    simp only [lookupVM]
    by_cases he : e.1 = m
    · rw [if_pos he, if_pos he]
    · rw [if_neg he, if_neg he]
      exact ih

/-- A name is present in the map exactly when it is among the keys. -/
theorem lookupVM_isSome_iff :
    ∀ (vm : SecretVolMap) (n : String),
      (lookupVM vm n).isSome = true ↔ n ∈ vm.map (fun e => e.1) := by
  intro vm n
  induction vm with
  | nil => simp [lookupVM]
  | cons e rest ih =>
    unfold lookupVM
    by_cases he : e.1 = n
    · simp [he]
    · rw [if_neg he]
      simp only [List.map_cons, List.mem_cons]
      rw [ih]
      constructor
      · intro h
        exact Or.inr h
      · intro h
        rcases h with h | h
        · exact absurd h.symm he
        · exact h

/-- Appending a fresh element keeps a list duplicate-free. -/
theorem nodup_append_singleton {α : Type} (l : List α) (x : α)
    (h1 : l.Nodup) (h2 : x ∉ l) : (l ++ [x]).Nodup := by
  refine h1.append (List.nodup_singleton x) ?_
  intro a ha hx
  rw [List.mem_singleton] at hx
  subst hx
  exact h2 ha

/-- One `createSecretVal` call preserves the unconditional invariant. -/
theorem createSecretVal_basic (st : SecretState) (r : Option SecretSel)
    (h : SecretBasicInvariant st) :
    SecretBasicInvariant (createSecretVal st r) := by
  obtain ⟨hKeys, hNodup, hMapNodup⟩ := h
  cases r with
  | none => exact ⟨hKeys, hNodup, hMapNodup⟩
  | some s =>
    simp only [createSecretVal]
    by_cases hv : s.name = "" ∨ s.key = ""
    · rw [if_pos hv]
      exact ⟨hKeys, hNodup, hMapNodup⟩
    · rw [if_neg hv]
      cases hl : lookupVM st.volMap s.name with
      | some its =>
        by_cases hk : keyId s.name s.key ∈ st.keyMap
        · rw [if_pos hk]
          exact ⟨hKeys, hNodup, hMapNodup⟩
        · rw [if_neg hk]
          have hitems_self : itemsOf st s.name = its := by
            simp [itemsOf, hl]
          have hA : ∀ n, itemsOf
              { volMap := appendItemVM st.volMap s.name s.key,
                keyMap := keyId s.name s.key :: st.keyMap } n =
              if n = s.name then its ++ [s.key] else itemsOf st n := by
            intro n
            by_cases hn : n = s.name
            · subst hn
              simp [itemsOf, lookupVM_appendItemVM_self st.volMap s.name s.key its hl]
            · simp [itemsOf, lookupVM_appendItemVM_other st.volMap s.name s.key n hn, hn]
          refine ⟨?_, ?_, ?_⟩
          · intro n k hmem
            rw [hA n] at hmem
            by_cases hn : n = s.name
            · rw [if_pos hn] at hmem
              rcases List.mem_append.mp hmem with hmem | hmem
              · subst hn
                exact List.mem_cons_of_mem _ (hKeys _ _ (hitems_self ▸ hmem))
              · rw [List.mem_singleton] at hmem
                subst hmem
                subst hn
                exact List.mem_cons_self _ _
            · rw [if_neg hn] at hmem
              exact List.mem_cons_of_mem _ (hKeys n k hmem)
          · intro n
            rw [hA n]
            by_cases hn : n = s.name
            · rw [if_pos hn]
              subst hn
              refine nodup_append_singleton its s.key (hitems_self ▸ hNodup s.name) ?_
              intro hmem
              exact hk (hKeys s.name s.key (hitems_self ▸ hmem))
            · rw [if_neg hn]
              exact hNodup n
          · rw [appendItemVM_keys]
            exact hMapNodup
      | none =>
        have hA : ∀ n, itemsOf
            { volMap := st.volMap ++ [(s.name, [s.key])],
              keyMap := keyId s.name s.key :: st.keyMap } n =
            if n = s.name then [s.key] else itemsOf st n := by
          intro n
          by_cases hn : n = s.name
          · subst hn
            simp [itemsOf, lookupVM_append_of_none st.volMap (s.name, [s.key]) hl]
          · simp [itemsOf,
              lookupVM_append_other st.volMap (s.name, [s.key]) n (fun hc => hn hc.symm), hn]
        refine ⟨?_, ?_, ?_⟩
        · intro n k hmem
          rw [hA n] at hmem
          by_cases hn : n = s.name
          · rw [if_pos hn] at hmem
            rw [List.mem_singleton] at hmem
            subst hmem
            subst hn
            exact List.mem_cons_self _ _
          · rw [if_neg hn] at hmem
            exact List.mem_cons_of_mem _ (hKeys n k hmem)
        · intro n
          rw [hA n]
          by_cases hn : n = s.name
          · rw [if_pos hn]
            exact List.nodup_singleton _
          · rw [if_neg hn]
            exact hNodup n
        · rw [List.map_append]
          refine nodup_append_singleton _ _ hMapNodup ?_
          intro hmem
          have := (lookupVM_isSome_iff st.volMap s.name).mpr (by simpa using hmem)
          rw [hl] at this
          simp at this

/-- Folding `createSecretVal` preserves the unconditional invariant. -/
theorem foldl_createSecretVal_basic :
    ∀ (refs : List (Option SecretSel)) (st : SecretState),
      SecretBasicInvariant st →
      SecretBasicInvariant (refs.foldl createSecretVal st) := by
  intro refs
  induction refs with
  | nil =>
    intro st h
    exact h
  | cons r rest ih =>
    intro st h
    exact ih _ (createSecretVal_basic st r h)

/-- The aggregated secret state of any reference list satisfies the
unconditional invariant. -/
theorem runSecretVals_basic (refs : List (Option SecretSel)) :
    SecretBasicInvariant (runSecretVals refs) := by
  apply foldl_createSecretVal_basic
  refine ⟨?_, ?_, ?_⟩
  · intro n k hk
    simp [itemsOf, lookupVM] at hk
  · intro n
    simp [itemsOf, lookupVM]
  · simp

/-- One valid `createSecretVal` call extends the exact characterization by
its pair, provided no already-processed pair shares its concatenated dedup
key. -/
theorem createSecretVal_inv_step (st : SecretState) (ps : List (String × String))
    (s : SecretSel) (hv : ¬(s.name = "" ∨ s.key = ""))
    (hinv : SecretInvariant st ps)
    (hinj : ∀ p ∈ ps, keyId p.1 p.2 = keyId s.name s.key → p = (s.name, s.key)) :
    SecretInvariant (createSecretVal st (some s)) (ps ++ [(s.name, s.key)]) := by
  obtain ⟨hItems, hKeyMap, hSome⟩ := hinv
  simp only [createSecretVal]
  rw [if_neg hv]
  cases hl : lookupVM st.volMap s.name with
  | some its =>
    by_cases hk : keyId s.name s.key ∈ st.keyMap
    · rw [if_pos hk]
      have hpmem : (s.name, s.key) ∈ ps := by
        rcases (hKeyMap _).mp hk with ⟨p, hp, hpk⟩
        have hpe := hinj p hp hpk.symm
        rw [← hpe]
        exact hp
      refine ⟨?_, ?_, ?_⟩
      · intro n k
        rw [hItems n k]
        constructor
        · intro h
          exact List.mem_append_left _ h
        · intro h
          rcases List.mem_append.mp h with h | h
          · exact h
          · rw [List.mem_singleton] at h
            rw [h]
            exact hpmem
      · intro x
        rw [hKeyMap x]
        constructor
        · rintro ⟨p, hp, hpk⟩
          exact ⟨p, List.mem_append_left _ hp, hpk⟩
        · rintro ⟨p, hp, hpk⟩
          rcases List.mem_append.mp hp with hp | hp
          · exact ⟨p, hp, hpk⟩
          · rw [List.mem_singleton] at hp
            subst hp
            exact ⟨(s.name, s.key), hpmem, hpk⟩
      · intro n
        rw [hSome n]
        constructor
        · rintro ⟨k, hkm⟩
          exact ⟨k, List.mem_append_left _ hkm⟩
        · rintro ⟨k, hkm⟩
          rcases List.mem_append.mp hkm with hkm | hkm
          · exact ⟨k, hkm⟩
          · rw [List.mem_singleton] at hkm
            have hn : n = s.name := congrArg Prod.fst hkm
            subst hn
            exact ⟨s.key, hpmem⟩
    · rw [if_neg hk]
      have hitems_self : itemsOf st s.name = its := by
        simp [itemsOf, hl]
      have hA : ∀ n, itemsOf
          { volMap := appendItemVM st.volMap s.name s.key,
            keyMap := keyId s.name s.key :: st.keyMap } n =
          if n = s.name then its ++ [s.key] else itemsOf st n := by
        intro n
        by_cases hn : n = s.name
        · subst hn
          simp [itemsOf, lookupVM_appendItemVM_self st.volMap s.name s.key its hl]
        · simp [itemsOf, lookupVM_appendItemVM_other st.volMap s.name s.key n hn, hn]
      refine ⟨?_, ?_, ?_⟩
      · intro n k
        rw [hA n]
        by_cases hn : n = s.name
        · subst hn
          rw [if_pos rfl]
          constructor
          · intro h
            rcases List.mem_append.mp h with h | h
            · have hx : k ∈ itemsOf st s.name := by
                rw [hitems_self]
                exact h
              exact List.mem_append_left _ ((hItems s.name k).mp hx)
            · rw [List.mem_singleton] at h
              subst h
              exact List.mem_append_right _ (List.mem_singleton.mpr rfl)
          · intro h
            rcases List.mem_append.mp h with h | h
            · have hx := (hItems s.name k).mpr h
              rw [hitems_self] at hx
              exact List.mem_append_left _ hx
            · rw [List.mem_singleton] at h
              have hks : k = s.key := congrArg Prod.snd h
              subst hks
              exact List.mem_append_right _ (List.mem_singleton.mpr rfl)
        · rw [if_neg hn, hItems n k]
          constructor
          · intro h
            exact List.mem_append_left _ h
          · intro h
            rcases List.mem_append.mp h with h | h
            · exact h
            · rw [List.mem_singleton] at h
              exact absurd (congrArg Prod.fst h) hn
      · intro x
        constructor
        · intro h
          rcases List.mem_cons.mp h with h | h
          · exact ⟨(s.name, s.key),
              List.mem_append_right _ (List.mem_singleton.mpr rfl), h⟩
          · rcases (hKeyMap x).mp h with ⟨p, hp, hpk⟩
            exact ⟨p, List.mem_append_left _ hp, hpk⟩
        · rintro ⟨p, hp, hpk⟩
          rcases List.mem_append.mp hp with hp | hp
          · exact List.mem_cons_of_mem _ ((hKeyMap x).mpr ⟨p, hp, hpk⟩)
          · rw [List.mem_singleton] at hp
            subst hp
            rw [hpk]
            exact List.mem_cons_self _ _
      · intro n
        constructor
        · intro h
          by_cases hn : n = s.name
          · subst hn
            exact ⟨s.key, List.mem_append_right _ (List.mem_singleton.mpr rfl)⟩
          · rw [lookupVM_appendItemVM_other st.volMap s.name s.key n hn] at h
            rcases (hSome n).mp h with ⟨k, hkm⟩
            exact ⟨k, List.mem_append_left _ hkm⟩
        · intro h
          by_cases hn : n = s.name
          · subst hn
            rw [lookupVM_appendItemVM_self st.volMap s.name s.key its hl]
            rfl
          · rw [lookupVM_appendItemVM_other st.volMap s.name s.key n hn]
            rcases h with ⟨k, hkm⟩
            rcases List.mem_append.mp hkm with hkm | hkm
            · exact (hSome n).mpr ⟨k, hkm⟩
            · rw [List.mem_singleton] at hkm
              exact absurd (congrArg Prod.fst hkm) hn
  | none =>
    have hnone : ∀ k, (s.name, k) ∉ ps := by
      intro k hkm
      have hs := (hSome s.name).mpr ⟨k, hkm⟩
      rw [hl] at hs
      simp at hs
    have hA : ∀ n, itemsOf
        { volMap := st.volMap ++ [(s.name, [s.key])],
          keyMap := keyId s.name s.key :: st.keyMap } n =
        if n = s.name then [s.key] else itemsOf st n := by
      intro n
      by_cases hn : n = s.name
      · subst hn
        simp [itemsOf, lookupVM_append_of_none st.volMap (s.name, [s.key]) hl]
      · simp [itemsOf,
          lookupVM_append_other st.volMap (s.name, [s.key]) n (fun hc => hn hc.symm), hn]
    refine ⟨?_, ?_, ?_⟩
    · intro n k
      rw [hA n]
      by_cases hn : n = s.name
      · subst hn
        rw [if_pos rfl]
        constructor
        · intro h
          rw [List.mem_singleton] at h
          subst h
          exact List.mem_append_right _ (List.mem_singleton.mpr rfl)
        · intro h
          rcases List.mem_append.mp h with h | h
          · exact absurd h (hnone k)
          · rw [List.mem_singleton] at h
            rw [List.mem_singleton]
            exact congrArg Prod.snd h
      · rw [if_neg hn, hItems n k]
        constructor
        · intro h
          exact List.mem_append_left _ h
        · intro h
          rcases List.mem_append.mp h with h | h
          · exact h
          · rw [List.mem_singleton] at h
            exact absurd (congrArg Prod.fst h) hn
    · intro x
      constructor
      · intro h
        rcases List.mem_cons.mp h with h | h
        · exact ⟨(s.name, s.key),
            List.mem_append_right _ (List.mem_singleton.mpr rfl), h⟩
        · rcases (hKeyMap x).mp h with ⟨p, hp, hpk⟩
          exact ⟨p, List.mem_append_left _ hp, hpk⟩
      · rintro ⟨p, hp, hpk⟩
        rcases List.mem_append.mp hp with hp | hp
        · exact List.mem_cons_of_mem _ ((hKeyMap x).mpr ⟨p, hp, hpk⟩)
        · rw [List.mem_singleton] at hp
          subst hp
          rw [hpk]
          exact List.mem_cons_self _ _
    · intro n
      by_cases hn : n = s.name
      · subst hn
        constructor
        · intro _
          exact ⟨s.key, List.mem_append_right _ (List.mem_singleton.mpr rfl)⟩
        · intro _
          rw [lookupVM_append_of_none st.volMap (s.name, [s.key]) hl]
          rfl
      · constructor
        · intro h
          rw [lookupVM_append_other st.volMap (s.name, [s.key]) n
            (fun hc => hn hc.symm)] at h
          rcases (hSome n).mp h with ⟨k, hkm⟩
          exact ⟨k, List.mem_append_left _ hkm⟩
        · intro h
          rw [lookupVM_append_other st.volMap (s.name, [s.key]) n
            (fun hc => hn hc.symm)]
          rcases h with ⟨k, hkm⟩
          rcases List.mem_append.mp hkm with hkm | hkm
          · exact (hSome n).mpr ⟨k, hkm⟩
          · rw [List.mem_singleton] at hkm
            exact absurd (congrArg Prod.fst hkm) hn

/-- Folding over a reference list extends the exact characterization by
its valid pairs, under the no-collision side condition. -/
theorem foldl_createSecretVal_inv :
    ∀ (refs : List (Option SecretSel)) (st : SecretState)
      (ps : List (String × String)),
      SecretInvariant st ps →
      pairwiseKeyIdInjective (ps ++ validPairs refs) →
      SecretInvariant (refs.foldl createSecretVal st) (ps ++ validPairs refs) := by
  intro refs
  induction refs with
  | nil =>
    intro st ps hinv hinj
    simpa [validPairs] using hinv
  | cons r rest ih =>
    intro st ps hinv hinj
    cases r with
    | none =>
      have hvp : validPairs (none :: rest) = validPairs rest := by
        simp [validPairs]
      rw [hvp] at hinj ⊢
      simp only [List.foldl_cons]
      exact ih st ps hinv hinj
    | some s =>
      by_cases hv : s.name = "" ∨ s.key = ""
      · have hvp : validPairs (some s :: rest) = validPairs rest := by
          simp [validPairs, hv]
        rw [hvp] at hinj ⊢
        simp only [List.foldl_cons]
        have hc : createSecretVal st (some s) = st := by
          simp only [createSecretVal]
          rw [if_pos hv]
        rw [hc]
        exact ih st ps hinv hinj
      · have hvp : validPairs (some s :: rest) = (s.name, s.key) :: validPairs rest := by
          simp [validPairs, hv]
        rw [hvp] at hinj ⊢
        have hassoc : ps ++ (s.name, s.key) :: validPairs rest =
            (ps ++ [(s.name, s.key)]) ++ validPairs rest := by
          simp
        rw [hassoc] at hinj ⊢
        simp only [List.foldl_cons]
        apply ih
        · apply createSecretVal_inv_step st ps s hv ⟨hinv.1, hinv.2.1, hinv.2.2⟩
          intro p hp hpk
          have h1 : p ∈ (ps ++ [(s.name, s.key)]) ++ validPairs rest :=
            List.mem_append_left _ (List.mem_append_left _ hp)
          have h2 : (s.name, s.key) ∈ (ps ++ [(s.name, s.key)]) ++ validPairs rest :=
            List.mem_append_left _ (List.mem_append_right _ (List.mem_singleton.mpr rfl))
          exact hinj p h1 (s.name, s.key) h2 hpk
        · exact hinj

/-- C5 (amended): secret aggregation produces at most one volume per
secret name and never projects the same key twice into a volume; and when
no two distinct referenced (name, key) pairs share the same concatenated
name-"-"-key string, there is exactly one volume per referenced secret
name and exactly one key-to-path entry per referenced pair.  Without that
proviso a distinct pair can be silently dropped (see the counterexample). -/
theorem secret_volume_dedup (refs : List (Option SecretSel)) :
    ((runSecretVals refs).volMap.map (fun e => e.1)).Nodup ∧
    (∀ n, (itemsOf (runSecretVals refs) n).Nodup) ∧
    (pairwiseKeyIdInjective (validPairs refs) →
      (∀ n, (lookupVM (runSecretVals refs).volMap n).isSome = true ↔
        ∃ k, (n, k) ∈ validPairs refs) ∧
      (∀ n k, k ∈ itemsOf (runSecretVals refs) n ↔ (n, k) ∈ validPairs refs) ∧
      (∀ n k, (n, k) ∈ validPairs refs →
        (itemsOf (runSecretVals refs) n).count k = 1)) := by
  have hbasic := runSecretVals_basic refs
  refine ⟨hbasic.2.2, hbasic.2.1, ?_⟩
  intro hinj
  have hinv0 : SecretInvariant ⟨[], []⟩ [] := by
    refine ⟨?_, ?_, ?_⟩
    · intro n k
      simp [itemsOf, lookupVM]
    · intro x
      simp
    · intro n
      simp [lookupVM]
  have hinv := foldl_createSecretVal_inv refs ⟨[], []⟩ [] hinv0 (by simpa using hinj)
  rw [List.nil_append] at hinv
  obtain ⟨hItems, _, hSome⟩ := hinv
  refine ⟨hSome, hItems, ?_⟩
  intro n k hmem
  exact List.count_eq_one_of_mem (hbasic.2.1 n) ((hItems n k).mpr hmem)

/-- Witness for C5: two artifacts referencing the same secret name with
different keys; the no-collision proviso holds, so the projected entries
are exactly the two referenced pairs in the one my-secret volume. -/
theorem secret_volume_dedup_witness :
    pairwiseKeyIdInjective (validPairs
      [some { name := "my-secret", key := "access" },
       some { name := "my-secret", key := "token" }]) ∧
    (∀ n k, k ∈ itemsOf (runSecretVals
      [some { name := "my-secret", key := "access" },
       some { name := "my-secret", key := "token" }]) n ↔
      (n, k) ∈ validPairs
        [some { name := "my-secret", key := "access" },
         some { name := "my-secret", key := "token" }]) :=
  ⟨by decide,
   ((secret_volume_dedup
      [some { name := "my-secret", key := "access" },
       some { name := "my-secret", key := "token" }]).2.2 (by decide)).2.1⟩

/-- C5 counterexample: the references ("a-b","x"), ("a","b-c"), ("a-b","c")
are pairwise-distinct valid pairs, yet the pair ("a-b","c") yields no
key-to-path entry: its dedup string "a-b-c" collides with the one of
("a","b-c"), so `createSecretVal` skips it and volume "a-b" keeps only
the key "x". -/
theorem secret_volume_dedup_counterexample :
    ("a-b", "c") ∈ validPairs collidingRefs ∧
    (itemsOf (runSecretVals collidingRefs) "a-b").count "c" = 0 := by
  refine ⟨by decide, by decide⟩

/-- Volume names distribute over list appends. -/
theorem volNames_append (a b : List Volume) :
    volNames (a ++ b) = volNames a ++ volNames b := by
  simp [volNames]

/-- A found volume carries the looked-up name, which is a pool name. -/
theorem findVolByName_some (l : List Volume) (n : String) (v : Volume)
    (h : findVolByName l n = some v) : v.name = n ∧ n ∈ volNames l := by
  unfold findVolByName at h
  have h1 := List.find?_some h
  have h2 := List.mem_of_find?_eq_some h
  have h3 : v.name = n := by simpa using h1
  refine ⟨h3, ?_⟩
  unfold volNames
  rw [List.mem_map]
  exact ⟨v, h2, h3⟩

/-- Volume resolution returns a volume named after the mount, whose name
is among the candidate pool names. -/
theorem getVolByName_some (tmpl : Template) (wfVols pvcs : List Volume)
    (n : String) (v : Volume) (h : getVolByName tmpl wfVols pvcs n = some v) :
    v.name = n ∧ n ∈ poolNames tmpl wfVols pvcs := by
  unfold getVolByName at h
  cases h1 : findVolByName tmpl.volumes n with
  | some w =>
    simp only [h1] at h
    injection h with h
    subst h
    obtain ⟨ha, hb⟩ := findVolByName_some _ _ _ h1
    exact ⟨ha, List.mem_append_left _ (List.mem_append_left _ hb)⟩
  | none =>
    simp only [h1] at h
    cases h2 : findVolByName wfVols n with
    | some w =>
      simp only [h2] at h
      injection h with h
      subst h
      obtain ⟨ha, hb⟩ := findVolByName_some _ _ _ h2
      exact ⟨ha, List.mem_append_left _ (List.mem_append_right _ hb)⟩
    | none =>
      simp only [h2] at h
      obtain ⟨ha, hb⟩ := findVolByName_some _ _ _ h
      exact ⟨ha, List.mem_append_right _ hb⟩

/-- The `addVolumeRef` closure preserves distinct volume names and only
ever appends pool names. -/
theorem addVolumeRef_ok (tmpl : Template) (wfVols pvcs : List Volume) :
    ∀ (mounts : List VolumeMount) (vols v2 : List Volume),
      addVolumeRef tmpl wfVols pvcs vols mounts = .ok v2 →
      ((volNames vols).Nodup → (volNames v2).Nodup) ∧
      (∀ x ∈ volNames v2, x ∈ volNames vols ∨ x ∈ poolNames tmpl wfVols pvcs) := by
  intro mounts
  induction mounts with
  | nil =>
    intro vols v2 h
    cases h
    exact ⟨fun h => h, fun x hx => Or.inl hx⟩
  | cons m rest ih =>
    intro vols v2 h
    simp only [addVolumeRef] at h
    split at h
    · cases h
    · rename_i v hg
      split at h
      · obtain ⟨ha, hb⟩ := ih vols v2 h
        exact ⟨ha, hb⟩
      · rename_i hfound
        obtain ⟨ha, hb⟩ := ih (vols ++ [v]) v2 h
        constructor
        · intro hnd
          apply ha
          rw [volNames_append]
          refine nodup_append_singleton _ _ hnd ?_
          intro hmem
          apply hfound
          rw [List.any_eq_true]
          unfold volNames at hmem
          rw [List.mem_map] at hmem
          obtain ⟨w, hw, hwname⟩ := hmem
          exact ⟨w, hw, beq_iff_eq.mpr hwname⟩
        · intro x hx
          rcases hb x hx with hx2 | hx2
          · rw [volNames_append, List.mem_append] at hx2
            rcases hx2 with hx2 | hx2
            · exact Or.inl hx2
            · rw [show volNames [v] = [v.name] from rfl, List.mem_singleton] at hx2
              subst hx2
              obtain ⟨hvn, hvp⟩ := getVolByName_some tmpl wfVols pvcs m.name v hg
              rw [hvn]
              exact Or.inr hvp
          · exact Or.inr hx2

/-- The iterated `addVolumeRef` of the init container and sidecar loops
preserves distinct volume names and only ever appends pool names. -/
theorem addVolumeRefAll_ok (tmpl : Template) (wfVols pvcs : List Volume) :
    ∀ (mss : List (List VolumeMount)) (vols v2 : List Volume),
      addVolumeRefAll tmpl wfVols pvcs vols mss = .ok v2 →
      ((volNames vols).Nodup → (volNames v2).Nodup) ∧
      (∀ x ∈ volNames v2, x ∈ volNames vols ∨ x ∈ poolNames tmpl wfVols pvcs) := by
  intro mss
  induction mss with
  | nil =>
    intro vols v2 h
    cases h
    exact ⟨fun h => h, fun x hx => Or.inl hx⟩
  | cons ms rest ih =>
    intro vols v2 h
    simp only [addVolumeRefAll] at h
    split at h
    · cases h
    · rename_i v1 h1
      obtain ⟨ha1, hb1⟩ := addVolumeRef_ok tmpl wfVols pvcs ms vols v1 h1
      obtain ⟨ha2, hb2⟩ := ih v1 v2 h
      refine ⟨fun hnd => ha2 (ha1 hnd), ?_⟩
      intro x hx
      rcases hb2 x hx with hx2 | hx2
      · exact hb1 x hx2
      · exact Or.inr hx2

/-- The names of the produced secret volumes are the map keys. -/
theorem secretVolumesOf_names (tmpl : Template) :
    volNames (secretVolumesOf tmpl).1 = secretVolNames tmpl := by
  unfold secretVolumesOf secretVolNames volNames
  rw [List.map_map]
  rfl

/-- Core of C4: under the stated disjointness side conditions, the volume
list after the pipeline has pairwise distinct names. -/
theorem volumesPipeline_volumes_nodup (cfg : CtrlConfig) (exec : ExecutorType)
    (tmpl : Template) (lvl : String) (mains : List Container)
    (wfVols pvcs : List Volume) (overlap : String → Option VolumeMount)
    (isUNC : String → Bool) (st : SynthState)
    (h1 : (volNames (createVolumes cfg exec tmpl)).Nodup)
    (h2 : ∀ n ∈ secretVolNames tmpl,
      n ∉ volNames (createVolumes cfg exec tmpl) ++ poolNames tmpl wfVols pvcs)
    (h3 : inputArtifactsVolName ∉
      volNames (createVolumes cfg exec tmpl) ++ poolNames tmpl wfVols pvcs ++
        secretVolNames tmpl)
    (hok : volumesPipeline cfg exec tmpl lvl mains wfVols pvcs overlap isUNC = .ok st) :
    (volNames st.volumes).Nodup := by
  unfold volumesPipeline at hok
  split at hok
  · cases hok
  · rename_i st1 href
    have hst1 : (volNames st1.volumes).Nodup ∧
        (∀ x ∈ volNames st1.volumes,
          x ∈ volNames (createVolumes cfg exec tmpl) ++ poolNames tmpl wfVols pvcs ++
            secretVolNames tmpl) := by
      unfold addVolumeReferencesStep at href
      split at href
      · cases href
        constructor
        · exact h1
        · intro x hx
          exact List.mem_append_left _ (List.mem_append_left _ hx)
      · split at href
        · cases href
        · rename_i v1 hv1
          split at href
          · cases href
          · rename_i v2 hv2
            split at href
            · cases href
            · rename_i v3 hv3
              cases href
              obtain ⟨ha1, hb1⟩ := addVolumeRef_ok tmpl wfVols pvcs
                tmpl.tmplVolumeMounts _ v1 hv1
              obtain ⟨ha2, hb2⟩ := addVolumeRefAll_ok tmpl wfVols pvcs _ v1 v2 hv2
              obtain ⟨ha3, hb3⟩ := addVolumeRefAll_ok tmpl wfVols pvcs _ v2 v3 hv3
              have hnd3 : (volNames v3).Nodup := ha3 (ha2 (ha1 h1))
              have hsub3 : ∀ x ∈ volNames v3,
                  x ∈ volNames (createVolumes cfg exec tmpl) ++
                    poolNames tmpl wfVols pvcs := by
                intro x hx
                rcases hb3 x hx with hx | hx
                · rcases hb2 x hx with hx | hx
                  · rcases hb1 x hx with hx | hx
                    · exact List.mem_append_left _ hx
                    · exact List.mem_append_right _ hx
                  · exact List.mem_append_right _ hx
                · exact List.mem_append_right _ hx
              constructor
              · rw [volNames_append]
                refine List.Nodup.append hnd3 ?_ ?_
                · rw [secretVolumesOf_names]
                  exact (runSecretVals_basic (secretRefSels tmpl)).2.2
                · intro a ha3m haS
                  rw [secretVolumesOf_names] at haS
                  exact h2 a haS (hsub3 a ha3m)
              · intro x hx
                rw [volNames_append] at hx
                rcases List.mem_append.mp hx with hx | hx
                · exact List.mem_append_left _ (hsub3 x hx)
                · rw [secretVolumesOf_names] at hx
                  exact List.mem_append_right _ hx
    unfold addInputArtifactsVolumesStep at hok
    split at hok
    · cases hok
      exact hst1.1
    · split at hok
      · cases hok
      · rename_i ctrs hctrs
        cases hok
        rw [volNames_append]
        refine nodup_append_singleton _ _ hst1.1 ?_
        intro hmem
        exact h3 (hst1.2 _ hmem)

/-- C4 (amended): after base volumes, resolved references, secret volumes
and the input-artifacts volume, all volume names are distinct, provided
the base list built by `createVolumes` is itself duplicate-free (template
volumes may otherwise reuse a reserved name verbatim, see the
counterexample), the secret names collide with no other candidate volume
name, and no volume is named input-artifacts.  Reference resolution alone
never introduces a duplicate. -/
theorem volume_name_uniqueness (cfg : CtrlConfig) (exec : ExecutorType)
    (tmpl : Template) (lvl : String) (mains : List Container)
    (wfVols pvcs : List Volume) (overlap : String → Option VolumeMount)
    (isUNC : String → Bool)
    (h1 : (volNames (createVolumes cfg exec tmpl)).Nodup)
    (h2 : ∀ n ∈ secretVolNames tmpl,
      n ∉ volNames (createVolumes cfg exec tmpl) ++ poolNames tmpl wfVols pvcs)
    (h3 : inputArtifactsVolName ∉
      volNames (createVolumes cfg exec tmpl) ++ poolNames tmpl wfVols pvcs ++
        secretVolNames tmpl) :
    pipelineVolNamesDistinct cfg exec tmpl lvl mains wfVols pvcs overlap isUNC = true := by
  unfold pipelineVolNamesDistinct
  cases hok : volumesPipeline cfg exec tmpl lvl mains wfVols pvcs overlap isUNC with
  | error e => rfl
  | ok st =>
    show decide (volNames st.volumes).Nodup = true
    exact decide_eq_true (volumesPipeline_volumes_nodup cfg exec tmpl lvl mains
      wfVols pvcs overlap isUNC st h1 h2 h3 hok)

/-- Witness for C4: a plain container template with no clashing names runs
the pipeline into a descriptor with pairwise distinct volume names. -/
theorem volume_name_uniqueness_witness :
    pipelineVolNamesDistinct {} .emissary { name := "t" } "info"
      [{ image := "img" }] [] [] (fun _ => none) (fun _ => false) = true :=
  volume_name_uniqueness {} .emissary { name := "t" } "info" [{ image := "img" }]
    [] [] (fun _ => none) (fun _ => false) (by decide) (by decide) (by decide)

/-- C4 counterexample: a template volume named var-run-argo is appended
verbatim after the base var-run-argo volume by `createVolumes`, so the
assembled descriptor carries two volumes of the same name. -/
theorem volume_name_uniqueness_counterexample :
    pipelineVolNamesDistinct {} .emissary clashingTmpl "info"
      [{ image := "img" }] [] [] (fun _ => none) (fun _ => false) = false := by
  decide
